import Mathlib

set_option maxRecDepth 8000
set_option linter.unusedVariables false

/-!
Verification of the FPL cross-provider entity-resolution and Top-100
aggregation pipeline.

This development shallowly embeds the core of the repository:

* the fuzzy matching engine and the mapping builders
  (sofa_sport/scripts/build_team_mapping.py, build_player_mapping.py);
* the Top-100 per-gameweek ETL pass
  (etl/services/top100_etl.py) and the range-mode management command
  (etl/management/commands/sync_top100.py).

Remote HTTP calls are modelled as oracles (a Client record of response
functions); the relational store is modelled as lists of typed rows with the
upsert operations the code performs; machine concerns (logging, sleeping,
timestamps) are omitted as they carry no data flow.
-/

deriving instance DecidableEq for Except

namespace FPLSpec

/-!
Similarity scorers.

The three scorers used by the matching engine come from the external
fuzzywuzzy library, which is not part of this repository; the matching
functions are therefore parameterized over them.  A concrete executable model
of the library scorers is given below (an edit-distance derived 0-100 scale:
the ratio of twice the longest-common-subsequence length to the total length,
rounded to the nearest integer) so that concrete runs can be evaluated.  On
the concrete inputs used in this file the model agrees with the library.
-/

structure Scorers where
  ratioFn : String → String → Nat
  partRatioFn : String → String → Nat
  tokenSortFn : String → String → Nat

/-- Lowercasing, as the str.lower() calls in the matching code (character-wise
    over the underlying character list). -/
def strLower (s : String) : String := String.mk (s.data.map Char.toLower)

/-- One row of the longest-common-subsequence dynamic program. -/
def lcsStepAux (a : Char) : List Char → Nat → List Nat → Nat → List Nat
  | [], _, _, _ => []
  | y :: ys, diag, prow, left =>
    let pj := prow.headD 0
    let nj := if a = y then diag + 1 else max left pj
    nj :: lcsStepAux a ys pj prow.tail nj

/-- Advance the LCS dynamic program by one character of the first string. -/
def lcsStep (a : Char) (ys : List Char) (prev : List Nat) : List Nat :=
  0 :: lcsStepAux a ys (prev.headD 0) prev.tail 0

/-- Length of a longest common subsequence of two character lists. -/
def lcsLen (xs ys : List Char) : Nat :=
  (xs.foldl (fun row a => lcsStep a ys row) (List.replicate (ys.length + 1) 0)).getLastD 0

/-- Nearest-integer value of num / den (ties rounded up). -/
def natRatio (num den : Nat) : Nat := (2 * num + den) / (2 * den)

/-- Model of the library ratio scorer on character lists: twice the matched
    length over the total length, scaled to 0-100. -/
def ratioL (a b : List Char) : Nat :=
  if a.length + b.length = 0 then 100
  else natRatio (200 * lcsLen a b) (a.length + b.length)

/-- Model of the library full-string ratio scorer. -/
def ratioOf (s1 s2 : String) : Nat := ratioL s1.data s2.data

/-- All contiguous windows of length k of a character list (the whole list if
    it is no longer than k). -/
def windows (k : Nat) : List Char → List (List Char)
  | [] => [[]]
  | x :: xs =>
    if xs.length + 1 ≤ k then [x :: xs]
    else (List.take k (x :: xs)) :: windows k xs

/-- Model of the library substring scorer: best ratio of the shorter string
    against same-length windows of the longer string. -/
def partRatioOf (s1 s2 : String) : Nat :=
  let a := s1.data
  let b := s2.data
  let p := if a.length ≤ b.length then (a, b) else (b, a)
  ((windows p.1.length p.2).map (fun w => ratioL p.1 w)).foldl max 0

/-- Strict lexicographic order on character lists (by code point). -/
def charsLtB : List Char → List Char → Bool
  | [], [] => false
  | [], _ :: _ => true
  | _ :: _, [] => false
  | a :: xs, b :: ys => if a < b then true else if b < a then false else charsLtB xs ys

/-- Insert a token into an ascending list of tokens. -/
def insertTok (w : List Char) : List (List Char) → List (List Char)
  | [] => [w]
  | t :: ts => if charsLtB t w then t :: insertTok w ts else w :: t :: ts

/-- Insertion sort of tokens into ascending lexicographic order. -/
def sortToks : List (List Char) → List (List Char)
  | [] => []
  | w :: ws => insertTok w (sortToks ws)

/-- Split a character list on spaces, discarding empty tokens (the semantics
    of str.split() on space-separated names).  The first argument accumulates
    the current token in reverse. -/
def splitSpaces : List Char → List Char → List (List Char)
  | acc, [] => if acc = [] then [] else [acc.reverse]
  | acc, c :: cs =>
    if c = ' ' then
      if acc = [] then splitSpaces [] cs else acc.reverse :: splitSpaces [] cs
    else splitSpaces (c :: acc) cs

/-- Join tokens with single spaces. -/
def joinSpace : List (List Char) → List Char
  | [] => []
  | [w] => w
  | w :: ws => w ++ ' ' :: joinSpace ws

/-- Sort the whitespace-separated tokens of a string and rejoin them. -/
def normTokens (s : String) : String :=
  String.mk (joinSpace (sortToks (splitSpaces [] s.data)))

/-- Model of the library token-order-invariant scorer. -/
def tokenSortOf (s1 s2 : String) : Nat := ratioOf (normTokens s1) (normTokens s2)

/-- The concrete scorer triple modelling the external library. -/
def fwScorers : Scorers :=
  { ratioFn := ratioOf, partRatioFn := partRatioOf, tokenSortFn := tokenSortOf }

/-!
Team matching: build_team_mapping.py.
-/

/-- Score of one FPL team candidate against the SofaSport query name: the
    maximum of the three scorers on the lowercased names
    (build_team_mapping.py lines 74-79). -/
def teamScore (sc : Scorers) (sofa_name fpl_name : String) : Nat :=
  max (sc.ratioFn (strLower sofa_name) (strLower fpl_name))
    (max (sc.partRatioFn (strLower sofa_name) (strLower fpl_name))
      (sc.tokenSortFn (strLower sofa_name) (strLower fpl_name)))

/-- One step of the best-match fold: keep the candidate when its score
    strictly exceeds the best score so far (first-seen wins on ties). -/
def teamStep (sc : Scorers) (sofa_name : String)
    (best_match : Option Nat × Option String × Nat) (t : Nat × String) :
    Option Nat × Option String × Nat :=
  if best_match.2.2 < teamScore sc sofa_name t.2 then
    (some t.1, some t.2, teamScore sc sofa_name t.2)
  else best_match

/-- Embedding of fuzzy_match_team (build_team_mapping.py lines 63-84).  The
    FPL teams dict is modelled as an id-name list in iteration order.  Note
    that the threshold parameter is never read by the function body. -/
def fuzzy_match_team (sc : Scorers) (sofa_name : String) (fpl_teams : List (Nat × String))
    (threshold : Nat) : Option Nat × Option String × Nat :=
  fpl_teams.foldl (teamStep sc sofa_name) (none, none, 0)

/-- A persisted team mapping row. -/
structure TeamMapRow where
  sofasport_id : String
  sofasport_name : String
  fpl_id : Option Nat
  fpl_name : Option String
  match_score : Nat
deriving DecidableEq

/-- Embedding of the persistence decision of build_team_mapping
    (build_team_mapping.py lines 106-124): the row is stored exactly when the
    returned score is at least 80; otherwise the team is reported unmatched. -/
def build_team_mapping_entry (sc : Scorers) (fpl_teams : List (Nat × String))
    (sofa_id sofa_name : String) : Option TeamMapRow :=
  let r := fuzzy_match_team sc sofa_name fpl_teams 80
  if 80 ≤ r.2.2 then
    some { sofasport_id := sofa_id, sofasport_name := sofa_name,
           fpl_id := r.1, fpl_name := r.2.1, match_score := r.2.2 }
  else none

/-!
Player matching: build_player_mapping.py.
-/

structure SofaPlayer where
  id : String
  name : String
  short_name : String
deriving DecidableEq

structure FplPlayer where
  id : Nat
  first_name : String
  second_name : String
  web_name : String
  full_name : String
deriving DecidableEq

/-- Best of the three scorers applied to the full names
    (build_player_mapping.py lines 117-122). -/
def fullNameScore (sc : Scorers) (sofa : SofaPlayer) (p : FplPlayer) : Nat :=
  max (sc.ratioFn (strLower sofa.name) (strLower p.full_name))
    (max (sc.partRatioFn (strLower sofa.name) (strLower p.full_name))
      (sc.tokenSortFn (strLower sofa.name) (strLower p.full_name)))

/-- The candidate score before the full-name boost (build_player_mapping.py
    lines 125-131): the full-name score, improved by the short-name ratio
    scores against the second name and the web name when the query has a
    short name (Python string truthiness: the empty string means absent). -/
def preBoostScore (sc : Scorers) (sofa : SofaPlayer) (p : FplPlayer) : Nat :=
  if sofa.short_name ≠ "" then
    max (fullNameScore sc sofa p)
      (max (sc.ratioFn (strLower sofa.short_name) (strLower p.second_name))
        (sc.ratioFn (strLower sofa.short_name) (strLower p.web_name)))
  else fullNameScore sc sofa p

/-- Combined score of one FPL player candidate (build_player_mapping.py lines
    115-135): the pre-boost score, boosted to at least the full-name score
    plus 5 when the full-name score is at least 85. -/
def playerScore (sc : Scorers) (sofa : SofaPlayer) (p : FplPlayer) : Nat :=
  if 85 ≤ fullNameScore sc sofa p then
    max (preBoostScore sc sofa p) (fullNameScore sc sofa p + 5)
  else preBoostScore sc sofa p

/-- One step of the player best-match fold. -/
def playerStep (sc : Scorers) (sofa : SofaPlayer)
    (best_match : Option Nat × Option String × Option String × Nat) (p : FplPlayer) :
    Option Nat × Option String × Option String × Nat :=
  if best_match.2.2.2 < playerScore sc sofa p then
    (some p.id, some p.web_name, some p.full_name, playerScore sc sofa p)
  else best_match

/-- Embedding of fuzzy_match_player (build_player_mapping.py lines 93-140).
    The threshold parameter is never read by the function body. -/
def fuzzy_match_player (sc : Scorers) (sofa : SofaPlayer) (fpl_players : List FplPlayer)
    (threshold : Nat) : Option Nat × Option String × Option String × Nat :=
  fpl_players.foldl (playerStep sc sofa) (none, none, none, 0)

/-- A persisted player mapping row. -/
structure PlayerMapRow where
  sofasport_id : String
  sofasport_name : String
  fpl_id : Nat
  fpl_web_name : Option String
  fpl_full_name : Option String
  fpl_team_id : Nat
  sofasport_team_id : String
  match_score : Nat
deriving DecidableEq

/-- Truthiness of the returned id in Python: not None and nonzero. -/
def idTruthy : Option Nat → Bool
  | none => false
  | some i => decide (i ≠ 0)

/-- Embedding of the persistence decision of build_player_mapping
    (build_player_mapping.py lines 170-193): the row, with the returned score
    recorded as match_score, is stored exactly when the returned id is truthy
    and the score is at least 75. -/
def build_player_mapping_entry (sc : Scorers) (fpl_players : List FplPlayer)
    (fpl_team_id : Nat) (sofa_team_id : String) (sofa : SofaPlayer) : Option PlayerMapRow :=
  let r := fuzzy_match_player sc sofa fpl_players 75
  if idTruthy r.1 = true ∧ 75 ≤ r.2.2.2 then
    some { sofasport_id := sofa.id, sofasport_name := sofa.name,
           fpl_id := r.1.getD 0, fpl_web_name := r.2.1, fpl_full_name := r.2.2.1,
           fpl_team_id := fpl_team_id, sofasport_team_id := sofa_team_id,
           match_score := r.2.2.2 }
  else none

/-!
Top-100 ETL pipeline: etl/services/top100_etl.py and the management command
etl/management/commands/sync_top100.py.

The remote FPL API is modelled as a Client record of oracle response
functions; a response is an Except value, error meaning any fetch failure the
code would see as a raised exception (timeout, non-2xx status, malformed
payload).  The relational store is modelled as typed row lists with the
update_or_create and get_or_create operations the code performs.  Ignored as
carrying no data flow: logging, sleeping between requests for rate limiting,
and created/updated timestamps.  Python floats are modelled as exact
rationals, with round(x, n) modelled by exact half-even decimal rounding.
-/

structure Top100Config where
  league_id : String
  manager_count : Nat
deriving DecidableEq

/-- The defaults of the Top100Config dataclass (top100_etl.py lines 28-33). -/
def defaultConfig : Top100Config := { league_id := "314", manager_count := 100 }

/-- One entry of the standings results array, with the fields the pass reads.
    Optional fields model keys that may be absent from the payload. -/
structure ManagerData where
  entry : Nat
  player_name : String
  entry_name : String
  rank : Option Nat
  last_rank : Option Nat
  total : Int
  event_total : Int
deriving DecidableEq

structure EntryHistory where
  bank : Int
  value : Int
deriving DecidableEq

structure PickData where
  element : Nat
  position : Nat
  is_captain : Bool
  is_vice_captain : Bool
  multiplier : Nat
deriving DecidableEq

structure PicksResponse where
  active_chip : Option String
  entry_history : Option EntryHistory
  picks : List PickData
deriving DecidableEq

structure TransferData where
  event : Nat
  element_in : Nat
  element_out : Nat
  element_in_cost : Int
  element_out_cost : Int
  time : Option String
deriving DecidableEq

/-- The remote FPL API, as response oracles: standings by page number, picks
    by (entry id, gameweek), transfer history by entry id. -/
structure Client where
  league_standings : Nat → Except String (List ManagerData)
  manager_picks : Nat → Nat → Except String PicksResponse
  manager_transfers : Nat → Except String (List TransferData)

/-- The page loop of fetch_top_managers (lines 54-64): fetch pages starting
    at the given number while fuel remains, stopping early once enough
    managers accumulated; a page error propagates. -/
def fetchPages (client : Client) (config : Top100Config) :
    Nat → Nat → List ManagerData → Except String (List ManagerData)
  | 0, _, acc => .ok acc
  | fuel + 1, page, acc =>
    match client.league_standings page with
    | .error e => .error e
    | .ok standings =>
      if config.manager_count ≤ (acc ++ standings).length then .ok (acc ++ standings)
      else fetchPages client config fuel (page + 1) (acc ++ standings)

/-- Embedding of fetch_top_managers (lines 46-66): fetch ceil(count / 50)
    standings pages and truncate to the configured cohort size. -/
def fetch_top_managers (client : Client) (config : Top100Config) :
    Except String (List ManagerData) :=
  match fetchPages client config ((config.manager_count + 49) / 50) 1 [] with
  | .ok managers => .ok (managers.take config.manager_count)
  | .error e => .error e

/-- Embedding of fetch_manager_picks (lines 69-82): any exception is caught
    and turned into None. -/
def fetch_manager_picks (client : Client) (entry_id game_week : Nat) : Option PicksResponse :=
  match client.manager_picks entry_id game_week with
  | .ok r => some r
  | .error _ => none

/-- Embedding of fetch_manager_transfers (lines 85-97): any exception is
    caught and turned into an empty list. -/
def fetch_manager_transfers (client : Client) (entry_id : Nat) : List TransferData :=
  match client.manager_transfers entry_id with
  | .ok l => l
  | .error _ => []

structure ManagerRow where
  entry_id : Nat
  game_week : Nat
  player_name : String
  entry_name : String
  rank : Nat
  last_rank : Option Nat
  total_points : Int
  event_total : Int
  active_chip : Option String
  bank : Int
  team_value : Int
deriving DecidableEq

structure PickRow where
  manager_entry : Nat
  game_week : Nat
  athlete_id : Nat
  position : Nat
  is_captain : Bool
  is_vice_captain : Bool
  multiplier : Nat
deriving DecidableEq

structure TransferRow where
  manager_entry : Nat
  game_week : Nat
  element_in : Nat
  element_out : Nat
  element_in_cost : Int
  element_out_cost : Int
  time : Option String
deriving DecidableEq

/-- One entry of a list-valued summary field.  The source emits dicts; the
    percentage key is present on template and captaincy entries but absent
    from transfer-trend entries, modelled by an optional field. -/
structure SummaryEntry where
  athlete_id : Nat
  count : Nat
  percentage : Option ℚ
deriving DecidableEq

structure SummaryRow where
  game_week : Nat
  manager_count : Nat
  league_id : String
  average_points : ℚ
  highest_points : Option Int
  lowest_points : Option Int
  template_team : List SummaryEntry
  template_squad : List SummaryEntry
  most_captained : List SummaryEntry
  chip_usage : List (String × Nat)
  most_transferred_in : List SummaryEntry
  most_transferred_out : List SummaryEntry
deriving DecidableEq

/-- The relational store: the athlete ids known locally (read-only during a
    pass) and the four Top-100 tables. -/
structure Store where
  athletes : List Nat
  managers : List ManagerRow
  picks : List PickRow
  transfers : List TransferRow
  summaries : List SummaryRow
deriving DecidableEq

/-- Counter increment, preserving first-seen key order (the iteration order
    of a Python Counter). -/
def bump {κ : Type} [DecidableEq κ] : List (κ × Nat) → κ → List (κ × Nat)
  | [], k => [(k, 1)]
  | p :: ps, k => if p.1 = k then (p.1, p.2 + 1) :: ps else p :: bump ps k

/-- Stable insertion into a count-descending list: the inserted element stops
    at the first entry whose count does not exceed it, so equal counts keep
    first-seen order. -/
def insertDesc {κ : Type} (x : κ × Nat) : List (κ × Nat) → List (κ × Nat)
  | [] => [x]
  | y :: ys => if y.2 ≤ x.2 then x :: y :: ys else y :: insertDesc x ys

/-- Counter.most_common(n): entries sorted by count descending, ties broken
    by first-seen order, truncated to n. -/
def most_common {κ : Type} (n : Nat) (l : List (κ × Nat)) : List (κ × Nat) :=
  (l.foldr insertDesc []).take n

/-- Sum of all counts of a counter. -/
def counterSum {κ : Type} (l : List (κ × Nat)) : Nat := (l.map (fun p => p.2)).sum

/-- Half-even rounding of the fraction a / b for positive b: the rounding
    used by Python round (binary-float representation artifacts are outside
    this model).  Executable in pure integer arithmetic. -/
def pyRoundDiv (a b : ℤ) : ℤ :=
  if 2 * (a % b) < b then a / b
  else if b < 2 * (a % b) then a / b + 1
  else if (a / b) % 2 = 0 then a / b else a / b + 1

/-- Specification-level half-even integer rounding of a rational. -/
def pyRound (q : ℚ) : ℤ :=
  if q - ⌊q⌋ < 1/2 then ⌊q⌋
  else if (1 : ℚ)/2 < q - ⌊q⌋ then ⌊q⌋ + 1
  else if ⌊q⌋ % 2 = 0 then ⌊q⌋ else ⌊q⌋ + 1

/-- Specification-level Python round(x, 1) on exact rationals. -/
def round1 (q : ℚ) : ℚ := (pyRound (10 * q) : ℚ) / 10

/-- Specification-level Python round(x, 2) on exact rationals. -/
def round2 (q : ℚ) : ℚ := (pyRound (100 * q) : ℚ) / 100

/-- The percentage count / manager_count × 100 rounded to one decimal, as an
    exact rational in tenths (the executable form of round1 on that value). -/
def pctRat (count manager_count : Nat) : ℚ :=
  mkRat (pyRoundDiv ((count : ℤ) * 1000) (manager_count : ℤ)) 10

/-- The average of the points list rounded to two decimals, as an exact
    rational in hundredths (the executable form of round2 on the mean). -/
def avgRat (total : ℤ) (len : Nat) : ℚ :=
  mkRat (pyRoundDiv (total * 100) (len : ℤ)) 100

/-- A pick as collected into the all_picks list (lines 193-197). -/
structure CollectedPick where
  athlete_id : Nat
  position : Nat
  is_captain : Bool
deriving DecidableEq

/-- The ownership counters of compute summary (lines 263-271): one pass over
    all_picks counting every pick into squad ownership (first component) and
    picks in positions 1-11 into starting ownership (second component). -/
def ownershipCounters (all_picks : List CollectedPick) :
    List (Nat × Nat) × List (Nat × Nat) :=
  all_picks.foldl
    (fun acc p =>
      (bump acc.1 p.athlete_id, if p.position ≤ 11 then bump acc.2 p.athlete_id else acc.2))
    ([], [])

/-- An ownership entry with its percentage of the configured cohort size,
    rounded to one decimal (lines 274-301). -/
def pctEntry (config : Top100Config) (p : Nat × Nat) : SummaryEntry :=
  { athlete_id := p.1, count := p.2,
    percentage := some (pctRat p.2 config.manager_count) }

/-- The transfer-trend counters (lines 304-308): transfers in, transfers out. -/
def transferCounters (all_transfers : List (Nat × Nat)) :
    List (Nat × Nat) × List (Nat × Nat) :=
  all_transfers.foldl (fun acc t => (bump acc.1 t.1, bump acc.2 t.2)) ([], [])

/-- Embedding of the summary computation (lines 252-343, without the row
    upsert).  Transfer-trend entries carry no percentage, mirroring the
    source dicts built with only athlete_id and count. -/
def compute_summary (game_week : Nat) (config : Top100Config)
    (all_picks : List CollectedPick) (all_transfers : List (Nat × Nat))
    (captain_picks : List (Nat × Nat)) (chip_usage : List (String × Nat))
    (points_list : List Int) : SummaryRow :=
  { game_week := game_week
    manager_count := config.manager_count
    league_id := config.league_id
    average_points :=
      if points_list = [] then (0 : ℚ) else avgRat points_list.sum points_list.length
    highest_points := points_list.max?
    lowest_points := points_list.min?
    template_team := (most_common 11 (ownershipCounters all_picks).2).map (pctEntry config)
    template_squad := (most_common 22 (ownershipCounters all_picks).1).map (pctEntry config)
    most_captained := (most_common 5 captain_picks).map (pctEntry config)
    chip_usage := chip_usage
    most_transferred_in := (most_common 10 (transferCounters all_transfers).1).map
      (fun p => { athlete_id := p.1, count := p.2, percentage := none })
    most_transferred_out := (most_common 10 (transferCounters all_transfers).2).map
      (fun p => { athlete_id := p.1, count := p.2, percentage := none }) }

/-- A fresh manager row as created by update_or_create (lines 139-150): the
    defaults dict plus the model field defaults for active_chip, bank and
    team_value. -/
def newMgrRow (entry game_week : Nat) (m : ManagerData) (rank : Nat) : ManagerRow :=
  { entry_id := entry, game_week := game_week, player_name := m.player_name,
    entry_name := m.entry_name, rank := rank, last_rank := m.last_rank,
    total_points := m.total, event_total := m.event_total,
    active_chip := none, bank := 0, team_value := 0 }

/-- Update of an existing manager row by update_or_create: only the fields of
    the defaults dict change; active_chip, bank and team_value keep their
    stored values. -/
def updMgrRow (m : ManagerData) (rank : Nat) (r : ManagerRow) : ManagerRow :=
  { r with player_name := m.player_name, entry_name := m.entry_name, rank := rank,
           last_rank := m.last_rank, total_points := m.total, event_total := m.event_total }

/-- Django update_or_create for manager rows keyed on (entry_id, game_week),
    returning the table and the resulting row. -/
def update_or_create_manager : List ManagerRow → Nat → Nat → ManagerData → Nat →
    List ManagerRow × ManagerRow
  | [], entry, game_week, m, rank =>
    ([newMgrRow entry game_week m rank], newMgrRow entry game_week m rank)
  | r :: rs, entry, game_week, m, rank =>
    if r.entry_id = entry ∧ r.game_week = game_week then
      (updMgrRow m rank r :: rs, updMgrRow m rank r)
    else
      (r :: (update_or_create_manager rs entry game_week m rank).1,
        (update_or_create_manager rs entry game_week m rank).2)

/-- Django instance.save for a manager row: replace the stored row with the
    same (entry_id, game_week) key. -/
def saveMgr : List ManagerRow → ManagerRow → List ManagerRow
  | [], _ => []
  | r :: rs, m =>
    if r.entry_id = m.entry_id ∧ r.game_week = m.game_week then m :: rs else r :: saveMgr rs m

/-- Django update_or_create for pick rows keyed on (manager, athlete): every
    non-key field is in the defaults dict, so the row is replaced
    (lines 181-191). -/
def upsertPick : List PickRow → PickRow → List PickRow
  | [], p => [p]
  | r :: rs, p =>
    if r.manager_entry = p.manager_entry ∧ r.game_week = p.game_week ∧
        r.athlete_id = p.athlete_id then
      p :: rs
    else r :: upsertPick rs p

/-- Django get_or_create for transfer rows keyed on
    (manager, game_week, element_in, element_out): inserts only when the key
    is absent (lines 216-226). -/
def getOrCreateTransfer : List TransferRow → TransferRow → List TransferRow
  | [], t => [t]
  | r :: rs, t =>
    if r.manager_entry = t.manager_entry ∧ r.game_week = t.game_week ∧
        r.element_in = t.element_in ∧ r.element_out = t.element_out then
      r :: rs
    else r :: getOrCreateTransfer rs t

/-- Django update_or_create for the summary row keyed on game_week: every
    content field is in the defaults dict, so the row is replaced
    (lines 326-341). -/
def upsertSummary : List SummaryRow → SummaryRow → List SummaryRow
  | [], s => [s]
  | r :: rs, s => if r.game_week = s.game_week then s :: rs else r :: upsertSummary rs s

/-- Python truthiness of an optional string: present and nonempty. -/
def strTruthy : Option String → Bool
  | none => false
  | some s => decide (s ≠ "")

/-- The mutable state of the per-manager loop: the three written tables plus
    the local collections initialized at lines 126-130. -/
structure LoopState where
  managers : List ManagerRow
  pickRows : List PickRow
  transferRows : List TransferRow
  all_picks : List CollectedPick
  all_transfers : List (Nat × Nat)
  chip_usage : List (String × Nat)
  captain_picks : List (Nat × Nat)
  points_list : List Int
deriving DecidableEq

structure PickLoopState where
  rows : List PickRow
  all_picks : List CollectedPick
  captain_picks : List (Nat × Nat)
deriving DecidableEq

/-- The pick row written for one fetched pick (lines 181-191). -/
def pickRowOf (entry game_week : Nat) (p : PickData) : PickRow :=
  { manager_entry := entry, game_week := game_week, athlete_id := p.element,
    position := p.position, is_captain := p.is_captain,
    is_vice_captain := p.is_vice_captain, multiplier := p.multiplier }

/-- The collected form of a fetched pick (lines 193-197). -/
def collectPick (p : PickData) : CollectedPick :=
  { athlete_id := p.element, position := p.position, is_captain := p.is_captain }

/-- Body of the picks loop (lines 173-200): skip picks of unknown athletes,
    upsert the pick row, collect the pick, count captaincy. -/
def processPick (known : List Nat) (entry game_week : Nat)
    (st : PickLoopState) (p : PickData) : PickLoopState :=
  if p.element ∈ known then
    { rows := upsertPick st.rows (pickRowOf entry game_week p),
      all_picks := st.all_picks ++ [collectPick p],
      captain_picks := if p.is_captain then bump st.captain_picks p.element else st.captain_picks }
  else st

structure TransferLoopState where
  rows : List TransferRow
  all_transfers : List (Nat × Nat)
deriving DecidableEq

/-- The transfer row written for one collected transfer (lines 216-226). -/
def transferRowOf (entry game_week : Nat) (t : TransferData) : TransferRow :=
  { manager_entry := entry, game_week := game_week, element_in := t.element_in,
    element_out := t.element_out, element_in_cost := t.element_in_cost,
    element_out_cost := t.element_out_cost, time := t.time }

/-- Body of the transfers loop (lines 206-231): skip transfers with an
    unknown athlete on either side, get-or-create the row, collect the pair. -/
def processTransfer (known : List Nat) (entry game_week : Nat)
    (st : TransferLoopState) (t : TransferData) : TransferLoopState :=
  if t.element_in ∈ known then
    if t.element_out ∈ known then
      { rows := getOrCreateTransfer st.rows (transferRowOf entry game_week t),
        all_transfers := st.all_transfers ++ [(t.element_in, t.element_out)] }
    else st
  else st

/-- The active-chip step (lines 158-162): when the chip value is truthy, save
    it on the manager row and count it. -/
def chipStep (managers : List ManagerRow) (mrow : ManagerRow)
    (chip_usage : List (String × Nat)) (active_chip : Option String) :
    List ManagerRow × ManagerRow × List (String × Nat) :=
  if strTruthy active_chip then
    (saveMgr managers { mrow with active_chip := active_chip },
      { mrow with active_chip := active_chip },
      bump chip_usage (active_chip.getD ""))
  else (managers, mrow, chip_usage)

/-- The entry-history step (lines 165-169): when present, save bank and team
    value on the manager row. -/
def bankStep (managers : List ManagerRow) (mrow : ManagerRow)
    (entry_history : Option EntryHistory) : List ManagerRow × ManagerRow :=
  match entry_history with
  | some eh =>
    (saveMgr managers { mrow with bank := eh.bank, team_value := eh.value },
      { mrow with bank := eh.bank, team_value := eh.value })
  | none => (managers, mrow)

structure PicksOutcome where
  managers : List ManagerRow
  pickRows : List PickRow
  all_picks : List CollectedPick
  chip_usage : List (String × Nat)
  captain_picks : List (Nat × Nat)
deriving DecidableEq

/-- Body of the per-manager loop of sync_top100_for_gameweek (lines 132-231):
    upsert the manager row, record its gameweek points, process its picks
    payload when the fetch succeeded, then process its transfer history
    (fetched regardless of the picks outcome).  The known athlete set is a
    parameter: the pass never writes the athlete table. -/
def processManager (client : Client) (known : List Nat) (game_week : Nat)
    (st : LoopState) (idx : Nat) (m : ManagerData) : LoopState :=
  let ucm := update_or_create_manager st.managers m.entry game_week m (m.rank.getD (idx + 1))
  let pp : PicksOutcome :=
    match fetch_manager_picks client m.entry game_week with
    | none =>
      { managers := ucm.1, pickRows := st.pickRows, all_picks := st.all_picks,
        chip_usage := st.chip_usage, captain_picks := st.captain_picks }
    | some picks_data =>
      let cs := chipStep ucm.1 ucm.2 st.chip_usage picks_data.active_chip
      let bs := bankStep cs.1 cs.2.1 picks_data.entry_history
      let ps := picks_data.picks.foldl (processPick known m.entry game_week)
        { rows := st.pickRows, all_picks := st.all_picks, captain_picks := st.captain_picks }
      { managers := bs.1, pickRows := ps.rows, all_picks := ps.all_picks,
        chip_usage := cs.2.2, captain_picks := ps.captain_picks }
  let ts := ((fetch_manager_transfers client m.entry).filter
      (fun t => t.event = game_week)).foldl (processTransfer known m.entry game_week)
    { rows := st.transferRows, all_transfers := st.all_transfers }
  { managers := pp.managers, pickRows := pp.pickRows, transferRows := ts.rows,
    all_picks := pp.all_picks, all_transfers := ts.all_transfers,
    chip_usage := pp.chip_usage, captain_picks := pp.captain_picks,
    points_list := st.points_list ++ [m.event_total] }

/-- The enumerate loop over the fetched managers (line 132). -/
def processAll (client : Client) (known : List Nat) (game_week : Nat) :
    Nat → List ManagerData → LoopState → LoopState
  | _, [], st => st
  | idx, m :: ms, st =>
    processAll client known game_week (idx + 1) ms
      (processManager client known game_week st idx m)

/-- The loop state at the start of a pass over store s: the stored tables
    plus the empty local collections (lines 126-130). -/
def initLoopState (s : Store) : LoopState :=
  { managers := s.managers, pickRows := s.picks, transferRows := s.transfers,
    all_picks := [], all_transfers := [], chip_usage := [], captain_picks := [],
    points_list := [] }

/-- Body of sync_top100_for_gameweek (lines 100-249) before the transaction
    wrapper: fetch the standings (an error here propagates), process every
    manager, compute the summary and upsert its row. -/
def syncBody (client : Client) (game_week : Nat) (config : Top100Config) (s : Store) :
    Except String (SummaryRow × Store) :=
  match fetch_top_managers client config with
  | .error e => .error e
  | .ok managers_data =>
    let st := processAll client s.athletes game_week 0 managers_data (initLoopState s)
    let summary := compute_summary game_week config st.all_picks st.all_transfers
      st.captain_picks st.chip_usage st.points_list
    .ok (summary,
      { athletes := s.athletes, managers := st.managers, picks := st.pickRows,
        transfers := st.transferRows, summaries := upsertSummary s.summaries summary })

/-- Embedding of sync_top100_for_gameweek with its transaction.atomic
    decorator, modelled with the transactional semantics the storage layer
    provides (an external collaborator): when the body succeeds all its
    writes commit as the new store; when it raises, the store is left exactly
    as it was and the exception propagates. -/
def sync_top100_for_gameweek (client : Client) (game_week : Nat)
    (config : Top100Config) (s : Store) : Except String SummaryRow × Store :=
  match syncBody client game_week config s with
  | .ok r => (.ok r.1, r.2)
  | .error e => (.error e, s)

/-- Embedding of the range mode of the sync_top100 management command
    (sync_top100.py lines 57-69): process each gameweek of the range in
    order; an exception raised by a pass propagates out of the loop. -/
def handle_range (client : Client) (config : Top100Config) :
    List Nat → Store → Except String Store
  | [], s => .ok s
  | gw :: gws, s =>
    match sync_top100_for_gameweek client gw config s with
    | (.ok _, s2) => handle_range client config gws s2
    | (.error e, _) => .error e

/-- The gameweek list of range mode: range(start_gw, end_gw + 1). -/
def gwRange (start_gw end_gw : Nat) : List Nat :=
  List.range' start_gw (end_gw + 1 - start_gw)

/-- The picks one manager contributes to the aggregation: its fetched picks
    restricted to known athletes, or nothing when the picks fetch failed. -/
def picksContrib (client : Client) (known : List Nat) (game_week : Nat)
    (m : ManagerData) : List CollectedPick :=
  match fetch_manager_picks client m.entry game_week with
  | some pd => (pd.picks.filter (fun p => decide (p.element ∈ known))).map collectPick
  | none => []

/-- The transfer pairs one manager contributes: its fetched transfer history
    filtered to the gameweek and to known athletes on both sides (empty when
    the transfers fetch failed). -/
def transfersContrib (client : Client) (known : List Nat) (game_week : Nat)
    (m : ManagerData) : List (Nat × Nat) :=
  ((((fetch_manager_transfers client m.entry).filter (fun t => t.event = game_week)).filter
    (fun t => decide (t.element_in ∈ known) && decide (t.element_out ∈ known))).map
    (fun t => (t.element_in, t.element_out)))

/-- The pick rows one manager upserts during the pass. -/
def pickRowsContrib (client : Client) (known : List Nat) (game_week : Nat)
    (m : ManagerData) : List PickRow :=
  match fetch_manager_picks client m.entry game_week with
  | some pd => (pd.picks.filter (fun p => decide (p.element ∈ known))).map
      (pickRowOf m.entry game_week)
  | none => []

/-- The transfer rows one manager get-or-creates during the pass. -/
def transferRowsContrib (client : Client) (known : List Nat) (game_week : Nat)
    (m : ManagerData) : List TransferRow :=
  (((fetch_manager_transfers client m.entry).filter (fun t => t.event = game_week)).filter
    (fun t => decide (t.element_in ∈ known) && decide (t.element_out ∈ known))).map
    (transferRowOf m.entry game_week)

/-- The chip-counter step one manager contributes. -/
def chipContrib (client : Client) (game_week : Nat) (m : ManagerData)
    (chip_usage : List (String × Nat)) : List (String × Nat) :=
  match fetch_manager_picks client m.entry game_week with
  | some pd =>
    if strTruthy pd.active_chip then bump chip_usage (pd.active_chip.getD "") else chip_usage
  | none => chip_usage

/-- The captaincy-counter fold over a list of collected picks. -/
def capFold (captain_picks : List (Nat × Nat)) (l : List CollectedPick) : List (Nat × Nat) :=
  l.foldl (fun c q => if q.is_captain then bump c q.athlete_id else c) captain_picks

/-- The chip counter accumulated over a cohort. -/
def chipFoldAll (client : Client) (game_week : Nat) (mans : List ManagerData)
    (chip_usage : List (String × Nat)) : List (String × Nat) :=
  mans.foldl (fun c m => chipContrib client game_week m c) chip_usage

/-- The summary a pass computes, as a function of the oracle responses, the
    known athletes and the fetched cohort only. -/
def summaryOf (client : Client) (known : List Nat) (game_week : Nat)
    (config : Top100Config) (mans : List ManagerData) : SummaryRow :=
  compute_summary game_week config
    (mans.flatMap (picksContrib client known game_week))
    (mans.flatMap (transfersContrib client known game_week))
    (capFold [] (mans.flatMap (picksContrib client known game_week)))
    (chipFoldAll client game_week mans [])
    (mans.map (fun m => m.event_total))

/-- Key presence in the manager table. -/
def hasMgrKey (l : List ManagerRow) (entry game_week : Nat) : Bool :=
  l.any (fun r => r.entry_id = entry && r.game_week = game_week)

/-- Key presence in the pick table. -/
def hasPickKey (l : List PickRow) (entry game_week athlete_id : Nat) : Bool :=
  l.any (fun r => r.manager_entry = entry && r.game_week = game_week &&
    r.athlete_id = athlete_id)

/-- Key presence in the transfer table. -/
def hasTransferKey (l : List TransferRow) (entry game_week ein eout : Nat) : Bool :=
  l.any (fun r => r.manager_entry = entry && r.game_week = game_week &&
    r.element_in = ein && r.element_out = eout)

/-- Lookup of the summary row of a gameweek. -/
def findSummary (l : List SummaryRow) (game_week : Nat) : Option SummaryRow :=
  l.find? (fun r => r.game_week = game_week)

/-!
Sample data used by witnesses and counterexamples.
-/

def salahQuery : SofaPlayer := { id := "99", name := "Mohamed Salah", short_name := "" }

def salahCandidate : FplPlayer :=
  { id := 1, first_name := "Mohamed", second_name := "Salah", web_name := "Salah",
    full_name := "Mohamed Salah" }

/-- A player query with no short name whose name matches the candidate below
    the player threshold. -/
def abQuery : SofaPlayer := { id := "5", name := "ab", short_name := "" }

/-- A player candidate scoring 50 against the two-letter query. -/
def abCandidate : FplPlayer :=
  { id := 9, first_name := "a", second_name := "b", web_name := "ax", full_name := "ax" }

/-- A standings entry: manager 7 scored 60 points this gameweek. -/
def mA : ManagerData :=
  { entry := 7, player_name := "A", entry_name := "TA", rank := some 1, last_rank := none,
    total := 100, event_total := 60 }

/-- A second standings entry: manager 8 scored 30 points this gameweek. -/
def mB : ManagerData :=
  { entry := 8, player_name := "B", entry_name := "TB", rank := some 2, last_rank := some 1,
    total := 90, event_total := 30 }

/-- A client whose standings list manager 7 but whose per-manager endpoints
    always fail. -/
def clientA : Client :=
  { league_standings := fun page => if page = 1 then .ok [mA] else .ok [],
    manager_picks := fun _ _ => .error "timeout",
    manager_transfers := fun _ => .error "timeout" }

/-- A client whose standings endpoint is unreachable. -/
def clientErr : Client :=
  { league_standings := fun _ => .error "down",
    manager_picks := fun _ _ => .error "down",
    manager_transfers := fun _ => .error "down" }

def cfg1 : Top100Config := { league_id := "314", manager_count := 1 }

def cfg2 : Top100Config := { league_id := "314", manager_count := 2 }

def store0 : Store :=
  { athletes := [1, 2, 3], managers := [], picks := [], transfers := [], summaries := [] }

/-- A store knowing athletes 1 to 15. -/
def store15 : Store :=
  { athletes := List.range' 1 15, managers := [], picks := [], transfers := [], summaries := [] }

/-- A full 15-slot squad: athletes 1 to 15 in positions 1 to 15, athlete 1
    captaining. -/
def squad15 : List PickData :=
  (List.range' 1 15).map (fun i =>
    { element := i, position := i, is_captain := decide (i = 1),
      is_vice_captain := decide (i = 2), multiplier := 1 })

def picksB : PicksResponse :=
  { active_chip := some "wildcard",
    entry_history := some { bank := 10, value := 1000 },
    picks := squad15 }

def transfersB : List TransferData :=
  [{ event := 1, element_in := 2, element_out := 3, element_in_cost := 55,
     element_out_cost := 60, time := none }]

/-- A client with a cohort of two managers: manager 7 fetches fully, both of
    manager 8's per-manager endpoints fail. -/
def clientB : Client :=
  { league_standings := fun page => if page = 1 then .ok [mA, mB] else .ok [],
    manager_picks := fun entry _ => if entry = 7 then .ok picksB else .error "timeout",
    manager_transfers := fun entry => if entry = 7 then .ok transfersB else .error "timeout" }

/-- A well-formed fetched squad over the known athletes: every pick known, 15
    picks in total, 11 of them in starting positions. -/
def wfSquad (known : List Nat) (pd : PicksResponse) : Bool :=
  decide (∀ p ∈ pd.picks, p.element ∈ known) && decide (pd.picks.length = 15) &&
    decide ((pd.picks.filter (fun p => decide (p.position ≤ 11))).length = 11)

/-- A client whose one manager has a successful picks fetch (one pick of
    athlete 1) but a failing transfers fetch. -/
def clientD : Client :=
  { league_standings := fun page => if page = 1 then .ok [mA] else .ok [],
    manager_picks := fun _ _ => .ok
      { active_chip := none, entry_history := none,
        picks := [{ element := 1, position := 1, is_captain := false,
                    is_vice_captain := false, multiplier := 1 }] },
    manager_transfers := fun _ => .error "timeout" }

/-- A client whose one manager has a single fetched pick rather than a full
    squad. -/
def clientC : Client :=
  { league_standings := fun page => if page = 1 then .ok [mA] else .ok [],
    manager_picks := fun _ _ => .ok
      { active_chip := none, entry_history := none,
        picks := [{ element := 1, position := 1, is_captain := false,
                    is_vice_captain := false, multiplier := 1 }] },
    manager_transfers := fun _ => .ok [] }

/-!
Properties of the best-match folds.
-/

theorem teamFold_spec (sc : Scorers) (q : String) (l : List (Nat × String))
    (acc : Option Nat × Option String × Nat) :
    acc.2.2 ≤ (l.foldl (teamStep sc q) acc).2.2 ∧
    (∀ t ∈ l, teamScore sc q t.2 ≤ (l.foldl (teamStep sc q) acc).2.2) ∧
    (l.foldl (teamStep sc q) acc = acc ∨
      ∃ t ∈ l, l.foldl (teamStep sc q) acc = (some t.1, some t.2, teamScore sc q t.2) ∧
        acc.2.2 < teamScore sc q t.2) := by
  induction l generalizing acc with
  | nil => exact ⟨le_refl _, by simp, Or.inl rfl⟩
  | cons t ts ih =>
    obtain ⟨ih1, ih2, ih3⟩ := ih (teamStep sc q acc t)
    have hle : acc.2.2 ≤ (teamStep sc q acc t).2.2 := by
      by_cases h : acc.2.2 < teamScore sc q t.2
      · simp only [teamStep, if_pos h]
        exact le_of_lt h
      · simp only [teamStep, if_neg h]
        exact le_refl _
    have hfold : (t :: ts).foldl (teamStep sc q) acc = ts.foldl (teamStep sc q) (teamStep sc q acc t) := rfl
    rw [hfold]
    refine ⟨le_trans hle ih1, ?_, ?_⟩
    · intro u hu
      rcases List.mem_cons.mp hu with rfl | hu
      · by_cases h : acc.2.2 < teamScore sc q u.2
        · have hstep : (teamStep sc q acc u).2.2 = teamScore sc q u.2 := by
            simp only [teamStep, if_pos h]
          exact hstep ▸ ih1
        · exact le_trans (le_of_not_lt h) (le_trans hle ih1)
      · exact ih2 u hu
    · rcases ih3 with heq | ⟨u, hu, hres, hlt⟩
      · by_cases h : acc.2.2 < teamScore sc q t.2
        · refine Or.inr ⟨t, List.mem_cons_self t ts, ?_, h⟩
          rw [heq]
          simp only [teamStep, if_pos h]
        · left
          rw [heq]
          simp only [teamStep, if_neg h]
      · exact Or.inr ⟨u, List.mem_cons_of_mem t hu, hres, lt_of_le_of_lt hle hlt⟩

theorem playerFold_spec (sc : Scorers) (sofa : SofaPlayer) (l : List FplPlayer)
    (acc : Option Nat × Option String × Option String × Nat) :
    acc.2.2.2 ≤ (l.foldl (playerStep sc sofa) acc).2.2.2 ∧
    (∀ p ∈ l, playerScore sc sofa p ≤ (l.foldl (playerStep sc sofa) acc).2.2.2) := by
  induction l generalizing acc with
  | nil => exact ⟨le_refl _, by simp⟩
  | cons p ps ih =>
    obtain ⟨ih1, ih2⟩ := ih (playerStep sc sofa acc p)
    have hle : acc.2.2.2 ≤ (playerStep sc sofa acc p).2.2.2 := by
      by_cases h : acc.2.2.2 < playerScore sc sofa p
      · simp only [playerStep, if_pos h]
        exact le_of_lt h
      · simp only [playerStep, if_neg h]
        exact le_refl _
    have hfold : (p :: ps).foldl (playerStep sc sofa) acc
        = ps.foldl (playerStep sc sofa) (playerStep sc sofa acc p) := rfl
    rw [hfold]
    refine ⟨le_trans hle ih1, ?_⟩
    intro u hu
    rcases List.mem_cons.mp hu with rfl | hu
    · by_cases h : acc.2.2.2 < playerScore sc sofa u
      · have hstep : (playerStep sc sofa acc u).2.2.2 = playerScore sc sofa u := by
          simp only [playerStep, if_pos h]
        exact hstep ▸ ih1
      · exact le_trans (le_of_not_lt h) (le_trans hle ih1)
    · exact ih2 u hu

theorem playerFold_best (sc : Scorers) (sofa : SofaPlayer) (l : List FplPlayer)
    (acc : Option Nat × Option String × Option String × Nat) :
    l.foldl (playerStep sc sofa) acc = acc ∨
      ∃ p ∈ l, l.foldl (playerStep sc sofa) acc
          = (some p.id, some p.web_name, some p.full_name, playerScore sc sofa p) ∧
        acc.2.2.2 < playerScore sc sofa p := by
  induction l generalizing acc with
  | nil => exact Or.inl rfl
  | cons p ps ih =>
    have hle : acc.2.2.2 ≤ (playerStep sc sofa acc p).2.2.2 := by
      by_cases h : acc.2.2.2 < playerScore sc sofa p
      · simp only [playerStep, if_pos h]
        exact le_of_lt h
      · simp only [playerStep, if_neg h]
        exact le_refl _
    have hfold : (p :: ps).foldl (playerStep sc sofa) acc
        = ps.foldl (playerStep sc sofa) (playerStep sc sofa acc p) := rfl
    rcases ih (playerStep sc sofa acc p) with heq | ⟨u, hu, hres, hlt⟩
    · by_cases h : acc.2.2.2 < playerScore sc sofa p
      · refine Or.inr ⟨p, List.mem_cons_self p ps, ?_, h⟩
        rw [hfold, heq]
        simp only [playerStep, if_pos h]
      · left
        rw [hfold, heq]
        simp only [playerStep, if_neg h]
    · refine Or.inr ⟨u, List.mem_cons_of_mem p hu, ?_, lt_of_le_of_lt hle hlt⟩
      rw [hfold, hres]

theorem playerScore_boost (sc : Scorers) (sofa : SofaPlayer) (p : FplPlayer)
    (h : 85 ≤ fullNameScore sc sofa p) :
    fullNameScore sc sofa p + 5 ≤ playerScore sc sofa p := by
  unfold playerScore
  rw [if_pos h]
  exact le_max_right _ _

/-!
Claims about the matching engine.
-/

/-- C10: the result of fuzzy_match_team is independent of the threshold
    argument (the function body never reads it), and the 80-point cut-off is
    applied only afterwards by the team builder, which persists a mapping row
    exactly when the returned score is at least 80. -/
theorem c10_team_match_threshold_independent (sc : Scorers) (sofa_name : String)
    (fpl_teams : List (Nat × String)) (t1 t2 : Nat) :
    fuzzy_match_team sc sofa_name fpl_teams t1 = fuzzy_match_team sc sofa_name fpl_teams t2 ∧
    ∀ sofa_id, (build_team_mapping_entry sc fpl_teams sofa_id sofa_name).isSome = true ↔
      80 ≤ (fuzzy_match_team sc sofa_name fpl_teams 80).2.2 := by
  refine ⟨rfl, ?_⟩
  intro sofa_id
  by_cases h : 80 ≤ (fuzzy_match_team sc sofa_name fpl_teams 80).2.2
  · simp [build_team_mapping_entry, h]
  · simp [build_team_mapping_entry, h]

/-- C3 counterexample: with the modelled library scorers, the single candidate
    scores 50, below the threshold 80, yet fuzzy_match_team still returns that
    candidate (id 1, score 50) rather than no match, refuting the claim that
    the match operation returns none whenever no candidate reaches the
    threshold. -/
theorem c3_counterexample :
    teamScore fwScorers "ab" "ax" = 50 ∧ (50 : Nat) < 80 ∧
    fuzzy_match_team fwScorers "ab" [(1, "ax")] 80 = (some 1, some "ax", 50) :=
  ⟨by decide, by decide, by decide⟩

/-- C3 (amended): both match functions ignore the threshold argument and
    always return the candidate with the globally highest score, reporting a
    missing id only when every candidate scores 0; the threshold cut-off is
    applied afterwards by the builders, which persist a row exactly when the
    best score reaches 80 (teams), or the best id is truthy and the best
    score reaches 75 (players). -/
theorem c3_amended_best_candidate (sc : Scorers) (sofa_name : String)
    (fpl_teams : List (Nat × String)) (sofa : SofaPlayer) (fpl_players : List FplPlayer)
    (threshold t2 : Nat) :
    (fuzzy_match_team sc sofa_name fpl_teams threshold
        = fuzzy_match_team sc sofa_name fpl_teams t2) ∧
    (fuzzy_match_player sc sofa fpl_players threshold
        = fuzzy_match_player sc sofa fpl_players t2) ∧
    (∀ t ∈ fpl_teams,
        teamScore sc sofa_name t.2 ≤ (fuzzy_match_team sc sofa_name fpl_teams threshold).2.2) ∧
    ((fuzzy_match_team sc sofa_name fpl_teams threshold).2.2 ≠ 0 →
      ∃ t ∈ fpl_teams, fuzzy_match_team sc sofa_name fpl_teams threshold
        = (some t.1, some t.2, teamScore sc sofa_name t.2)) ∧
    ((fuzzy_match_team sc sofa_name fpl_teams threshold).1 = none ↔
      ∀ t ∈ fpl_teams, teamScore sc sofa_name t.2 = 0) ∧
    (∀ p ∈ fpl_players,
        playerScore sc sofa p ≤ (fuzzy_match_player sc sofa fpl_players threshold).2.2.2) ∧
    ((fuzzy_match_player sc sofa fpl_players threshold).2.2.2 ≠ 0 →
      ∃ p ∈ fpl_players, fuzzy_match_player sc sofa fpl_players threshold
        = (some p.id, some p.web_name, some p.full_name, playerScore sc sofa p)) ∧
    ((fuzzy_match_player sc sofa fpl_players threshold).1 = none ↔
      ∀ p ∈ fpl_players, playerScore sc sofa p = 0) ∧
    (∀ sofa_id, (build_team_mapping_entry sc fpl_teams sofa_id sofa_name).isSome = true ↔
      80 ≤ (fuzzy_match_team sc sofa_name fpl_teams 80).2.2) ∧
    (∀ (ftid : Nat) (stid : String),
      (build_player_mapping_entry sc fpl_players ftid stid sofa).isSome = true ↔
        idTruthy (fuzzy_match_player sc sofa fpl_players 75).1 = true ∧
          75 ≤ (fuzzy_match_player sc sofa fpl_players 75).2.2.2) := by
  obtain ⟨h1, h2, h3⟩ := teamFold_spec sc sofa_name fpl_teams (none, none, 0)
  obtain ⟨hp1, hp2⟩ := playerFold_spec sc sofa fpl_players (none, none, none, 0)
  have hpb := playerFold_best sc sofa fpl_players (none, none, none, 0)
  refine ⟨rfl, rfl, h2, ?_, ?_, hp2, ?_, ?_, ?_, ?_⟩
  · intro hne
    rcases h3 with heq | ⟨t, ht, hres, _⟩
    · exact absurd (congrArg (fun r => r.2.2) heq) hne
    · exact ⟨t, ht, hres⟩
  · constructor
    · intro hnone t ht
      by_contra hz
      have hpos : 0 < teamScore sc sofa_name t.2 := Nat.pos_of_ne_zero hz
      rcases h3 with heq | ⟨u, hu, hres, _⟩
      · have hz2 : (List.foldl (teamStep sc sofa_name) (none, none, 0) fpl_teams).2.2 = 0 := by
          rw [heq]
        have hle2 := h2 t ht
        omega
      · rw [fuzzy_match_team] at hnone
        rw [hres] at hnone
        exact Option.noConfusion hnone
    · intro hz
      rcases h3 with heq | ⟨t, ht, _, hlt⟩
      · exact congrArg (fun r => r.1) heq
      · rw [hz t ht] at hlt
        exact absurd hlt (Nat.not_lt_zero _)
  · intro hne
    rcases hpb with heq | ⟨p, hp, hres, _⟩
    · exact absurd (congrArg (fun r => r.2.2.2) heq) hne
    · exact ⟨p, hp, hres⟩
  · constructor
    · intro hnone p hp
      by_contra hz
      have hpos : 0 < playerScore sc sofa p := Nat.pos_of_ne_zero hz
      rcases hpb with heq | ⟨u, hu, hres, _⟩
      · have hz2 : (List.foldl (playerStep sc sofa) (none, none, none, 0) fpl_players).2.2.2
            = 0 := by
          rw [heq]
        have hle2 := hp2 p hp
        omega
      · rw [fuzzy_match_player] at hnone
        rw [hres] at hnone
        exact Option.noConfusion hnone
    · intro hz
      rcases hpb with heq | ⟨p, hp, _, hlt⟩
      · exact congrArg (fun r => r.1) heq
      · rw [hz p hp] at hlt
        exact absurd hlt (Nat.not_lt_zero _)
  · intro sofa_id
    by_cases h : 80 ≤ (fuzzy_match_team sc sofa_name fpl_teams 80).2.2
    · simp [build_team_mapping_entry, h]
    · simp [build_team_mapping_entry, h]
  · intro ftid stid
    by_cases h : idTruthy (fuzzy_match_player sc sofa fpl_players 75).1 = true ∧
        75 ≤ (fuzzy_match_player sc sofa fpl_players 75).2.2.2
    · simp [build_player_mapping_entry, h]
    · simp only [build_player_mapping_entry, if_neg h]
      simpa using h

/-- C3 witness for the amended statement: on the concrete two-letter queries
    both match functions return their unique candidate together with its
    score, even though the scores 50 are below the thresholds. -/
theorem c3_amended_witness :
    (∃ t ∈ [((1 : Nat), "ax")], fuzzy_match_team fwScorers "ab" [(1, "ax")] 80
      = (some t.1, some t.2, teamScore fwScorers "ab" t.2)) ∧
    (∃ p ∈ [abCandidate], fuzzy_match_player fwScorers abQuery [abCandidate] 75
      = (some p.id, some p.web_name, some p.full_name, playerScore fwScorers abQuery p)) :=
  ⟨(c3_amended_best_candidate fwScorers "ab" [(1, "ax")] abQuery [abCandidate] 80 80).2.2.2.1
      (by decide),
    (c3_amended_best_candidate fwScorers "ab" [(1, "ax")] abQuery [abCandidate] 75
      75).2.2.2.2.2.2.1 (by decide)⟩

/-- C9: a query whose full name matches a candidate perfectly scores 100 on
    the full name, earns the +5 boost, and fuzzy_match_player returns the
    combined score 105, exceeding the 0-100 similarity scale; the player
    builder persists that over-100 score as the row match_score.  In general,
    whenever some candidate has a full-name score of at least 96, the returned
    score exceeds 100. -/
theorem c9_score_exceeds_100 :
    fuzzy_match_player fwScorers salahQuery [salahCandidate] 75
      = (some 1, some "Salah", some "Mohamed Salah", 105) ∧
    (100 : Nat) < 105 ∧
    (build_player_mapping_entry fwScorers [salahCandidate] 3 "17" salahQuery).map
      (fun r => r.match_score) = some 105 ∧
    ∀ (sc : Scorers) (sofa : SofaPlayer) (fpl_players : List FplPlayer) (p : FplPlayer),
      p ∈ fpl_players → 96 ≤ fullNameScore sc sofa p →
        100 < (fuzzy_match_player sc sofa fpl_players 75).2.2.2 := by
  refine ⟨by decide, by decide, by decide, ?_⟩
  intro sc sofa fpl_players p hp hfull
  have hboost : fullNameScore sc sofa p + 5 ≤ playerScore sc sofa p :=
    playerScore_boost sc sofa p (le_trans (by norm_num) hfull)
  have hge : playerScore sc sofa p ≤ (fuzzy_match_player sc sofa fpl_players 75).2.2.2 :=
    (playerFold_spec sc sofa fpl_players (none, none, none, 0)).2 p hp
  have h101 : 101 ≤ fullNameScore sc sofa p + 5 := by omega
  omega

/-- C9 witness: the general over-100 consequence instantiated at the concrete
    perfect-match input. -/
theorem c9_witness :
    100 < (fuzzy_match_player fwScorers salahQuery [salahCandidate] 75).2.2.2 :=
  c9_score_exceeds_100.2.2.2 fwScorers salahQuery [salahCandidate] salahCandidate
    (List.mem_singleton.mpr rfl) (by decide)

/-!
Decomposition of the per-manager loop: each component of the loop state after
the fold is the corresponding per-manager contribution, appended or folded in
cohort order.
-/

theorem capFold_nil (c : List (Nat × Nat)) : capFold c [] = c := rfl

theorem capFold_append (c : List (Nat × Nat)) (l1 l2 : List CollectedPick) :
    capFold c (l1 ++ l2) = capFold (capFold c l1) l2 :=
  List.foldl_append _ _ _ _

theorem capFold_cons (c : List (Nat × Nat)) (q : CollectedPick) (l : List CollectedPick) :
    capFold c (q :: l) = capFold (if q.is_captain then bump c q.athlete_id else c) l := rfl

theorem pickFold_spec (known : List Nat) (entry game_week : Nat) (picks : List PickData)
    (st : PickLoopState) :
    picks.foldl (processPick known entry game_week) st =
      { rows := ((picks.filter (fun p => decide (p.element ∈ known))).map
            (pickRowOf entry game_week)).foldl upsertPick st.rows,
        all_picks := st.all_picks ++
          (picks.filter (fun p => decide (p.element ∈ known))).map collectPick,
        captain_picks := capFold st.captain_picks
          ((picks.filter (fun p => decide (p.element ∈ known))).map collectPick) } := by
  induction picks generalizing st with
  | nil => simp [capFold]
  | cons p ps ih =>
    rw [List.foldl_cons, ih]
    by_cases h : p.element ∈ known <;>
      simp [processPick, h, List.filter_cons, List.append_assoc, capFold_cons, collectPick]

theorem transferFold_spec (known : List Nat) (entry game_week : Nat)
    (trs : List TransferData) (st : TransferLoopState) :
    trs.foldl (processTransfer known entry game_week) st =
      { rows := ((trs.filter (fun t => decide (t.element_in ∈ known) &&
              decide (t.element_out ∈ known))).map (transferRowOf entry game_week)).foldl
            getOrCreateTransfer st.rows,
        all_transfers := st.all_transfers ++
          (trs.filter (fun t => decide (t.element_in ∈ known) &&
            decide (t.element_out ∈ known))).map (fun t => (t.element_in, t.element_out)) } := by
  induction trs generalizing st with
  | nil => simp
  | cons t ts ih =>
    rw [List.foldl_cons, ih]
    by_cases h1 : t.element_in ∈ known <;> by_cases h2 : t.element_out ∈ known <;>
      simp [processTransfer, h1, h2, List.filter_cons, List.append_assoc]

theorem processManager_spec (client : Client) (known : List Nat) (game_week : Nat)
    (st : LoopState) (idx : Nat) (m : ManagerData) :
    (processManager client known game_week st idx m).all_picks
        = st.all_picks ++ picksContrib client known game_week m ∧
    (processManager client known game_week st idx m).all_transfers
        = st.all_transfers ++ transfersContrib client known game_week m ∧
    (processManager client known game_week st idx m).captain_picks
        = capFold st.captain_picks (picksContrib client known game_week m) ∧
    (processManager client known game_week st idx m).chip_usage
        = chipContrib client game_week m st.chip_usage ∧
    (processManager client known game_week st idx m).points_list
        = st.points_list ++ [m.event_total] ∧
    (processManager client known game_week st idx m).pickRows
        = (pickRowsContrib client known game_week m).foldl upsertPick st.pickRows ∧
    (processManager client known game_week st idx m).transferRows
        = (transferRowsContrib client known game_week m).foldl getOrCreateTransfer
            st.transferRows := by
  cases hf : fetch_manager_picks client m.entry game_week with
  | none =>
    simp [processManager, hf, picksContrib, transfersContrib, chipContrib,
      pickRowsContrib, transferRowsContrib, transferFold_spec, capFold]
  | some pd =>
    by_cases hc : strTruthy pd.active_chip = true <;>
      simp [processManager, hf, picksContrib, transfersContrib, chipContrib,
        pickRowsContrib, transferRowsContrib, transferFold_spec, pickFold_spec,
        chipStep, bankStep, capFold, hc]

theorem processAll_spec (client : Client) (known : List Nat) (game_week : Nat)
    (mans : List ManagerData) : ∀ (idx : Nat) (st : LoopState),
    (processAll client known game_week idx mans st).all_picks
        = st.all_picks ++ mans.flatMap (picksContrib client known game_week) ∧
    (processAll client known game_week idx mans st).all_transfers
        = st.all_transfers ++ mans.flatMap (transfersContrib client known game_week) ∧
    (processAll client known game_week idx mans st).captain_picks
        = capFold st.captain_picks (mans.flatMap (picksContrib client known game_week)) ∧
    (processAll client known game_week idx mans st).chip_usage
        = chipFoldAll client game_week mans st.chip_usage ∧
    (processAll client known game_week idx mans st).points_list
        = st.points_list ++ mans.map (fun m => m.event_total) ∧
    (processAll client known game_week idx mans st).pickRows
        = (mans.flatMap (pickRowsContrib client known game_week)).foldl upsertPick st.pickRows ∧
    (processAll client known game_week idx mans st).transferRows
        = (mans.flatMap (transferRowsContrib client known game_week)).foldl
            getOrCreateTransfer st.transferRows := by
  induction mans with
  | nil =>
    intro idx st
    simp [processAll, chipFoldAll, capFold]
  | cons m ms ih =>
    intro idx st
    obtain ⟨h1, h2, h3, h4, h5, h6, h7⟩ := processManager_spec client known game_week st idx m
    obtain ⟨g1, g2, g3, g4, g5, g6, g7⟩ :=
      ih (idx + 1) (processManager client known game_week st idx m)
    have hstep : processAll client known game_week idx (m :: ms) st
        = processAll client known game_week (idx + 1) ms
            (processManager client known game_week st idx m) := rfl
    refine ⟨?_, ?_, ?_, ?_, ?_, ?_, ?_⟩
    · rw [hstep, g1, h1]
      simp [List.append_assoc]
    · rw [hstep, g2, h2]
      simp [List.append_assoc]
    · rw [hstep, g3, h3]
      rw [List.flatMap_cons, capFold_append]
    · rw [hstep, g4, h4]
      rfl
    · rw [hstep, g5, h5]
      simp [List.append_assoc]
    · rw [hstep, g6, h6]
      simp [List.foldl_append]
    · rw [hstep, g7, h7]
      simp [List.foldl_append]

/-!
The pass as a whole.
-/

theorem syncBody_spec (client : Client) (game_week : Nat) (config : Top100Config)
    (s : Store) (mans : List ManagerData)
    (h : fetch_top_managers client config = .ok mans) :
    syncBody client game_week config s =
      .ok (summaryOf client s.athletes game_week config mans,
        { athletes := s.athletes,
          managers := (processAll client s.athletes game_week 0 mans (initLoopState s)).managers,
          picks := (mans.flatMap (pickRowsContrib client s.athletes game_week)).foldl
            upsertPick s.picks,
          transfers := (mans.flatMap (transferRowsContrib client s.athletes game_week)).foldl
            getOrCreateTransfer s.transfers,
          summaries := upsertSummary s.summaries
            (summaryOf client s.athletes game_week config mans) }) := by
  obtain ⟨a1, a2, a3, a4, a5, a6, a7⟩ :=
    processAll_spec client s.athletes game_week mans 0 (initLoopState s)
  have hsum : compute_summary game_week config
      (processAll client s.athletes game_week 0 mans (initLoopState s)).all_picks
      (processAll client s.athletes game_week 0 mans (initLoopState s)).all_transfers
      (processAll client s.athletes game_week 0 mans (initLoopState s)).captain_picks
      (processAll client s.athletes game_week 0 mans (initLoopState s)).chip_usage
      (processAll client s.athletes game_week 0 mans (initLoopState s)).points_list
      = summaryOf client s.athletes game_week config mans := by
    rw [a1, a2, a3, a4, a5]
    simp [initLoopState, summaryOf, chipFoldAll]
  have hpicks : (processAll client s.athletes game_week 0 mans (initLoopState s)).pickRows
      = (mans.flatMap (pickRowsContrib client s.athletes game_week)).foldl upsertPick s.picks := by
    rw [a6]
    simp [initLoopState]
  have htr : (processAll client s.athletes game_week 0 mans (initLoopState s)).transferRows
      = (mans.flatMap (transferRowsContrib client s.athletes game_week)).foldl
          getOrCreateTransfer s.transfers := by
    rw [a7]
    simp [initLoopState]
  simp only [syncBody, h]
  rw [hsum, hpicks, htr]

theorem sync_spec (client : Client) (game_week : Nat) (config : Top100Config)
    (s : Store) (mans : List ManagerData)
    (h : fetch_top_managers client config = .ok mans) :
    sync_top100_for_gameweek client game_week config s =
      (.ok (summaryOf client s.athletes game_week config mans),
        { athletes := s.athletes,
          managers := (processAll client s.athletes game_week 0 mans (initLoopState s)).managers,
          picks := (mans.flatMap (pickRowsContrib client s.athletes game_week)).foldl
            upsertPick s.picks,
          transfers := (mans.flatMap (transferRowsContrib client s.athletes game_week)).foldl
            getOrCreateTransfer s.transfers,
          summaries := upsertSummary s.summaries
            (summaryOf client s.athletes game_week config mans) }) := by
  unfold sync_top100_for_gameweek
  rw [syncBody_spec client game_week config s mans h]

theorem sync_error_spec (client : Client) (game_week : Nat) (config : Top100Config)
    (s : Store) (e : String) (h : fetch_top_managers client config = .error e) :
    sync_top100_for_gameweek client game_week config s = (.error e, s) := by
  unfold sync_top100_for_gameweek syncBody
  rw [h]

theorem findSummary_upsert (l : List SummaryRow) (S : SummaryRow) :
    findSummary (upsertSummary l S) S.game_week = some S := by
  induction l with
  | nil => simp [upsertSummary, findSummary]
  | cons r rs ih =>
    by_cases h : r.game_week = S.game_week
    · simp [upsertSummary, h, findSummary]
    · simp only [upsertSummary, if_neg h]
      simp only [findSummary, List.find?] at ih ⊢
      simp [h, ih]

theorem summaryOf_game_week (client : Client) (known : List Nat) (game_week : Nat)
    (config : Top100Config) (mans : List ManagerData) :
    (summaryOf client known game_week config mans).game_week = game_week := rfl

/-!
Key presence in the written tables.
-/

theorem uocm_key (l : List ManagerRow) (entry game_week : Nat) (m : ManagerData) (rank : Nat) :
    (update_or_create_manager l entry game_week m rank).2.entry_id = entry ∧
    (update_or_create_manager l entry game_week m rank).2.game_week = game_week := by
  induction l with
  | nil => exact ⟨rfl, rfl⟩
  | cons r rs ih =>
    by_cases h : r.entry_id = entry ∧ r.game_week = game_week
    · simp only [update_or_create_manager, if_pos h]
      exact ⟨h.1, h.2⟩
    · simpa only [update_or_create_manager, if_neg h] using ih

theorem uocm_has (l : List ManagerRow) (entry game_week : Nat) (m : ManagerData) (rank : Nat) :
    hasMgrKey (update_or_create_manager l entry game_week m rank).1 entry game_week = true := by
  induction l with
  | nil => simp [update_or_create_manager, hasMgrKey, newMgrRow]
  | cons r rs ih =>
    by_cases h : r.entry_id = entry ∧ r.game_week = game_week
    · simp [update_or_create_manager, if_pos h, hasMgrKey, updMgrRow, h.1, h.2]
    · simp only [update_or_create_manager, if_neg h, hasMgrKey, List.any_cons]
      simp only [hasMgrKey] at ih
      simp [ih]

theorem uocm_preserves (l : List ManagerRow) (entry game_week : Nat) (m : ManagerData)
    (rank : Nat) (e gw : Nat) (h : hasMgrKey l e gw = true) :
    hasMgrKey (update_or_create_manager l entry game_week m rank).1 e gw = true := by
  induction l with
  | nil => simp [hasMgrKey] at h
  | cons r rs ih =>
    by_cases hk : r.entry_id = entry ∧ r.game_week = game_week
    · simp only [update_or_create_manager, if_pos hk, hasMgrKey, List.any_cons] at h ⊢
      rcases Bool.or_eq_true_iff.mp h with hr | hrest
      · refine Bool.or_eq_true_iff.mpr (Or.inl ?_)
        simp only [updMgrRow]
        simpa using hr
      · exact Bool.or_eq_true_iff.mpr (Or.inr hrest)
    · simp only [update_or_create_manager, if_neg hk, hasMgrKey, List.any_cons] at h ⊢
      rcases Bool.or_eq_true_iff.mp h with hr | hrest
      · exact Bool.or_eq_true_iff.mpr (Or.inl hr)
      · simp only [hasMgrKey] at ih
        exact Bool.or_eq_true_iff.mpr (Or.inr (ih hrest))

theorem saveMgr_preserves (l : List ManagerRow) (mrow : ManagerRow) (e gw : Nat)
    (h : hasMgrKey l e gw = true) : hasMgrKey (saveMgr l mrow) e gw = true := by
  induction l with
  | nil => simp [hasMgrKey] at h
  | cons r rs ih =>
    by_cases hk : r.entry_id = mrow.entry_id ∧ r.game_week = mrow.game_week
    · simp only [saveMgr, if_pos hk, hasMgrKey, List.any_cons] at h ⊢
      rcases Bool.or_eq_true_iff.mp h with hr | hrest
      · refine Bool.or_eq_true_iff.mpr (Or.inl ?_)
        simp only [Bool.and_eq_true, decide_eq_true_eq] at hr ⊢
        exact ⟨hk.1 ▸ hr.1, hk.2 ▸ hr.2⟩
      · exact Bool.or_eq_true_iff.mpr (Or.inr hrest)
    · simp only [saveMgr, if_neg hk, hasMgrKey, List.any_cons] at h ⊢
      rcases Bool.or_eq_true_iff.mp h with hr | hrest
      · exact Bool.or_eq_true_iff.mpr (Or.inl hr)
      · simp only [hasMgrKey] at ih
        exact Bool.or_eq_true_iff.mpr (Or.inr (ih hrest))

theorem processManager_mgrKey (client : Client) (known : List Nat) (game_week : Nat)
    (st : LoopState) (idx : Nat) (m : ManagerData) (e gw : Nat)
    (h : hasMgrKey st.managers e gw = true ∨ (e = m.entry ∧ gw = game_week)) :
    hasMgrKey (processManager client known game_week st idx m).managers e gw = true := by
  have hbase : hasMgrKey
      (update_or_create_manager st.managers m.entry game_week m (m.rank.getD (idx + 1))).1
      e gw = true := by
    rcases h with hp | ⟨he, hgw⟩
    · exact uocm_preserves _ _ _ _ _ _ _ hp
    · rw [he, hgw]
      exact uocm_has _ _ _ _ _
  cases hf : fetch_manager_picks client m.entry game_week with
  | none => simpa [processManager, hf] using hbase
  | some pd =>
    have hchip : hasMgrKey (chipStep
        (update_or_create_manager st.managers m.entry game_week m (m.rank.getD (idx + 1))).1
        (update_or_create_manager st.managers m.entry game_week m (m.rank.getD (idx + 1))).2
        st.chip_usage pd.active_chip).1 e gw = true := by
      by_cases hc : strTruthy pd.active_chip = true
      · simp only [chipStep, if_pos hc]
        exact saveMgr_preserves _ _ _ _ hbase
      · simpa only [chipStep, if_neg hc] using hbase
    have hbank : ∀ (mans1 : List ManagerRow) (mrow : ManagerRow),
        hasMgrKey mans1 e gw = true →
        hasMgrKey (bankStep mans1 mrow pd.entry_history).1 e gw = true := by
      intro mans1 mrow hp
      cases heh : pd.entry_history with
      | none => simpa [bankStep, heh] using hp
      | some eh =>
        simp only [bankStep, heh]
        exact saveMgr_preserves _ _ _ _ hp
    simpa [processManager, hf] using hbank _ _ hchip

theorem processAll_mgrKey_mono (client : Client) (known : List Nat) (game_week : Nat)
    (mans : List ManagerData) : ∀ (idx : Nat) (st : LoopState) (e gw : Nat),
    hasMgrKey st.managers e gw = true →
    hasMgrKey (processAll client known game_week idx mans st).managers e gw = true := by
  induction mans with
  | nil => intro idx st e gw h; exact h
  | cons m ms ih =>
    intro idx st e gw h
    exact ih (idx + 1) _ e gw (processManager_mgrKey client known game_week st idx m e gw (Or.inl h))

theorem processAll_mgrKey_mem (client : Client) (known : List Nat) (game_week : Nat)
    (mans : List ManagerData) : ∀ (idx : Nat) (st : LoopState) (m : ManagerData), m ∈ mans →
    hasMgrKey (processAll client known game_week idx mans st).managers m.entry game_week = true := by
  induction mans with
  | nil => intro idx st m hm; exact absurd hm (List.not_mem_nil m)
  | cons m0 ms ih =>
    intro idx st m hm
    rcases List.mem_cons.mp hm with rfl | hm
    · exact processAll_mgrKey_mono client known game_week ms (idx + 1) _ m.entry game_week
        (processManager_mgrKey client known game_week st idx m m.entry game_week
          (Or.inr ⟨rfl, rfl⟩))
    · exact ih (idx + 1) _ m hm

theorem upsertPick_self (l : List PickRow) (r : PickRow) :
    hasPickKey (upsertPick l r) r.manager_entry r.game_week r.athlete_id = true := by
  induction l with
  | nil => simp [upsertPick, hasPickKey]
  | cons x xs ih =>
    by_cases hk : x.manager_entry = r.manager_entry ∧ x.game_week = r.game_week ∧
        x.athlete_id = r.athlete_id
    · simp [upsertPick, if_pos hk, hasPickKey]
    · simp only [upsertPick, if_neg hk, hasPickKey, List.any_cons]
      simp only [hasPickKey] at ih
      simp [ih]

theorem upsertPick_preserves (l : List PickRow) (r : PickRow) (e gw a : Nat)
    (h : hasPickKey l e gw a = true) : hasPickKey (upsertPick l r) e gw a = true := by
  induction l with
  | nil => simp [hasPickKey] at h
  | cons x xs ih =>
    by_cases hk : x.manager_entry = r.manager_entry ∧ x.game_week = r.game_week ∧
        x.athlete_id = r.athlete_id
    · simp only [upsertPick, if_pos hk, hasPickKey, List.any_cons] at h ⊢
      rcases Bool.or_eq_true_iff.mp h with hr | hrest
      · refine Bool.or_eq_true_iff.mpr (Or.inl ?_)
        simp only [Bool.and_eq_true, decide_eq_true_eq] at hr ⊢
        exact ⟨⟨hk.1 ▸ hr.1.1, hk.2.1 ▸ hr.1.2⟩, hk.2.2 ▸ hr.2⟩
      · exact Bool.or_eq_true_iff.mpr (Or.inr hrest)
    · simp only [upsertPick, if_neg hk, hasPickKey, List.any_cons] at h ⊢
      rcases Bool.or_eq_true_iff.mp h with hr | hrest
      · exact Bool.or_eq_true_iff.mpr (Or.inl hr)
      · simp only [hasPickKey] at ih
        exact Bool.or_eq_true_iff.mpr (Or.inr (ih hrest))

theorem foldl_upsertPick_preserves (rows : List PickRow) : ∀ (l : List PickRow) (e gw a : Nat),
    hasPickKey l e gw a = true → hasPickKey (rows.foldl upsertPick l) e gw a = true := by
  induction rows with
  | nil => intro l e gw a h; exact h
  | cons r rs ih =>
    intro l e gw a h
    exact ih (upsertPick l r) e gw a (upsertPick_preserves l r e gw a h)

theorem foldl_upsertPick_mem (rows : List PickRow) : ∀ (l : List PickRow) (r : PickRow),
    r ∈ rows → hasPickKey (rows.foldl upsertPick l) r.manager_entry r.game_week r.athlete_id
      = true := by
  induction rows with
  | nil => intro l r hr; exact absurd hr (List.not_mem_nil r)
  | cons x xs ih =>
    intro l r hr
    rcases List.mem_cons.mp hr with rfl | hr
    · exact foldl_upsertPick_preserves xs (upsertPick l r) _ _ _ (upsertPick_self l r)
    · exact ih (upsertPick l x) r hr

theorem getOrCreateTransfer_self (l : List TransferRow) (r : TransferRow) :
    hasTransferKey (getOrCreateTransfer l r) r.manager_entry r.game_week r.element_in
      r.element_out = true := by
  induction l with
  | nil => simp [getOrCreateTransfer, hasTransferKey]
  | cons x xs ih =>
    by_cases hk : x.manager_entry = r.manager_entry ∧ x.game_week = r.game_week ∧
        x.element_in = r.element_in ∧ x.element_out = r.element_out
    · simp [getOrCreateTransfer, if_pos hk, hasTransferKey, hk.1, hk.2.1, hk.2.2.1, hk.2.2.2]
    · simp only [getOrCreateTransfer, if_neg hk, hasTransferKey, List.any_cons]
      simp only [hasTransferKey] at ih
      simp [ih]

theorem getOrCreateTransfer_preserves (l : List TransferRow) (r : TransferRow)
    (e gw i o : Nat) (h : hasTransferKey l e gw i o = true) :
    hasTransferKey (getOrCreateTransfer l r) e gw i o = true := by
  induction l with
  | nil => simp [hasTransferKey] at h
  | cons x xs ih =>
    by_cases hk : x.manager_entry = r.manager_entry ∧ x.game_week = r.game_week ∧
        x.element_in = r.element_in ∧ x.element_out = r.element_out
    · simpa only [getOrCreateTransfer, if_pos hk] using h
    · simp only [getOrCreateTransfer, if_neg hk, hasTransferKey, List.any_cons] at h ⊢
      rcases Bool.or_eq_true_iff.mp h with hr | hrest
      · exact Bool.or_eq_true_iff.mpr (Or.inl hr)
      · simp only [hasTransferKey] at ih
        exact Bool.or_eq_true_iff.mpr (Or.inr (ih hrest))

theorem foldl_getOrCreateTransfer_preserves (rows : List TransferRow) :
    ∀ (l : List TransferRow) (e gw i o : Nat), hasTransferKey l e gw i o = true →
    hasTransferKey (rows.foldl getOrCreateTransfer l) e gw i o = true := by
  induction rows with
  | nil => intro l e gw i o h; exact h
  | cons r rs ih =>
    intro l e gw i o h
    exact ih (getOrCreateTransfer l r) e gw i o (getOrCreateTransfer_preserves l r e gw i o h)

theorem foldl_getOrCreateTransfer_mem (rows : List TransferRow) :
    ∀ (l : List TransferRow) (r : TransferRow), r ∈ rows →
    hasTransferKey (rows.foldl getOrCreateTransfer l) r.manager_entry r.game_week
      r.element_in r.element_out = true := by
  induction rows with
  | nil => intro l r hr; exact absurd hr (List.not_mem_nil r)
  | cons x xs ih =>
    intro l r hr
    rcases List.mem_cons.mp hr with rfl | hr
    · exact foldl_getOrCreateTransfer_preserves xs (getOrCreateTransfer l r) _ _ _ _
        (getOrCreateTransfer_self l r)
    · exact ih (getOrCreateTransfer l x) r hr

theorem pickRowsContrib_fields (client : Client) (known : List Nat) (game_week : Nat)
    (m : ManagerData) (r : PickRow) (hr : r ∈ pickRowsContrib client known game_week m) :
    r.manager_entry = m.entry ∧ r.game_week = game_week := by
  unfold pickRowsContrib at hr
  cases hf : fetch_manager_picks client m.entry game_week with
  | none => rw [hf] at hr; exact absurd hr (List.not_mem_nil r)
  | some pd =>
    rw [hf] at hr
    obtain ⟨p, _, hp⟩ := List.mem_map.mp hr
    rw [← hp]
    exact ⟨rfl, rfl⟩

theorem transferRowsContrib_fields (client : Client) (known : List Nat) (game_week : Nat)
    (m : ManagerData) (r : TransferRow)
    (hr : r ∈ transferRowsContrib client known game_week m) :
    r.manager_entry = m.entry ∧ r.game_week = game_week := by
  unfold transferRowsContrib at hr
  obtain ⟨t, _, ht⟩ := List.mem_map.mp hr
  rw [← ht]
  exact ⟨rfl, rfl⟩

/-!
The executable integer rounding agrees with the specification-level rational
rounding.
-/

theorem pyRoundDiv_eq (a : ℤ) (d : ℕ) (hd : 0 < d) :
    pyRoundDiv a (d : ℤ) = pyRound ((a : ℚ) / (d : ℚ)) := by
  have hd' : (0 : ℚ) < (d : ℚ) := by exact_mod_cast hd
  have hfloor : ⌊(a : ℚ) / (d : ℚ)⌋ = a / (d : ℤ) := Rat.floor_intCast_div_natCast a d
  have hdecomp : (d : ℤ) * (a / (d : ℤ)) + a % (d : ℤ) = a := Int.ediv_add_emod a (d : ℤ)
  have hdecompQ : (d : ℚ) * (((a / (d : ℤ)) : ℤ) : ℚ) + (((a % (d : ℤ)) : ℤ) : ℚ) = (a : ℚ) := by
    exact_mod_cast hdecomp
  have hfrac : (a : ℚ) / (d : ℚ) - (⌊(a : ℚ) / (d : ℚ)⌋ : ℚ)
      = (((a % (d : ℤ)) : ℤ) : ℚ) / (d : ℚ) := by
    rw [hfloor]
    rw [eq_div_iff (ne_of_gt hd'), sub_mul, div_mul_cancel₀ _ (ne_of_gt hd')]
    push_cast at hdecompQ
    linarith
  have k1 : ((a : ℚ) / (d : ℚ) - (⌊(a : ℚ) / (d : ℚ)⌋ : ℚ) < 1/2)
      ↔ (2 * (a % (d : ℤ)) < (d : ℤ)) := by
    rw [hfrac]
    have hq : (((a % (d : ℤ)) : ℤ) : ℚ) / (d : ℚ) < 1/2
        ↔ 2 * (((a % (d : ℤ)) : ℤ) : ℚ) < (d : ℚ) := by
      rw [div_lt_div_iff₀ hd' (by norm_num : (0 : ℚ) < 2)]
      constructor <;> intro <;> linarith
    rw [hq]
    exact_mod_cast Iff.rfl
  have k2 : ((1 : ℚ)/2 < (a : ℚ) / (d : ℚ) - (⌊(a : ℚ) / (d : ℚ)⌋ : ℚ))
      ↔ ((d : ℤ) < 2 * (a % (d : ℤ))) := by
    rw [hfrac]
    have hq : (1 : ℚ)/2 < (((a % (d : ℤ)) : ℤ) : ℚ) / (d : ℚ)
        ↔ (d : ℚ) < 2 * (((a % (d : ℤ)) : ℤ) : ℚ) := by
      rw [div_lt_div_iff₀ (by norm_num : (0 : ℚ) < 2) hd']
      constructor <;> intro <;> linarith
    rw [hq]
    exact_mod_cast Iff.rfl
  unfold pyRound pyRoundDiv
  simp only [hfloor] at k1 k2 ⊢
  simp only [k1, k2]

theorem pctRat_eq (count mc : Nat) (h : 0 < mc) :
    pctRat count mc = round1 ((count : ℚ) / (mc : ℚ) * 100) := by
  unfold pctRat round1
  have h10 : (10 : ℚ) * ((count : ℚ) / (mc : ℚ) * 100)
      = (((count : ℤ) * 1000 : ℤ) : ℚ) / (mc : ℚ) := by
    push_cast
    field_simp
    ring
  rw [h10, ← pyRoundDiv_eq _ mc h, Rat.mkRat_eq_div]
  norm_num

theorem avgRat_eq (total : ℤ) (len : Nat) (h : 0 < len) :
    avgRat total len = round2 ((total : ℚ) / (len : ℚ)) := by
  unfold avgRat round2
  have h100 : (100 : ℚ) * ((total : ℚ) / (len : ℚ)) = ((total * 100 : ℤ) : ℚ) / (len : ℚ) := by
    push_cast
    field_simp
    ring
  rw [h100, ← pyRoundDiv_eq _ len h, Rat.mkRat_eq_div]
  norm_num

/-!
Claims about the pipeline pass.
-/

/-- C1: the gameweek pass is atomic.  When it raises (the standings fetch
    being the orchestration-level failure point) the store is left exactly as
    it was.  When the standings fetch succeeds the pass returns normally for
    every behavior of the per-manager oracles, and all its writes commit: the
    summary row of the gameweek holds the computed summary, every cohort
    manager has a manager row, and every collected pick and transfer row is
    present.  A manager whose fetches failed is not a rollback trigger: it
    merely contributes no pick or transfer rows. -/
theorem c1_pass_atomic (client : Client) (game_week : Nat) (config : Top100Config) (s : Store) :
    (∀ e, (sync_top100_for_gameweek client game_week config s).1 = .error e →
      (sync_top100_for_gameweek client game_week config s).2 = s) ∧
    (∀ mans, fetch_top_managers client config = .ok mans →
      (sync_top100_for_gameweek client game_week config s).1
          = .ok (summaryOf client s.athletes game_week config mans) ∧
      findSummary (sync_top100_for_gameweek client game_week config s).2.summaries game_week
          = some (summaryOf client s.athletes game_week config mans) ∧
      (∀ m ∈ mans, hasMgrKey (sync_top100_for_gameweek client game_week config s).2.managers
          m.entry game_week = true) ∧
      (∀ m ∈ mans, ∀ r ∈ pickRowsContrib client s.athletes game_week m,
        hasPickKey (sync_top100_for_gameweek client game_week config s).2.picks
          m.entry game_week r.athlete_id = true) ∧
      (∀ m ∈ mans, ∀ r ∈ transferRowsContrib client s.athletes game_week m,
        hasTransferKey (sync_top100_for_gameweek client game_week config s).2.transfers
          m.entry game_week r.element_in r.element_out = true)) := by
  constructor
  · intro e he
    unfold sync_top100_for_gameweek at he ⊢
    cases hb : syncBody client game_week config s with
    | ok r =>
      rw [hb] at he
      exact absurd he (by simp)
    | error e2 => rfl
  · intro mans h
    rw [sync_spec client game_week config s mans h]
    refine ⟨rfl, ?_, ?_, ?_, ?_⟩
    · exact findSummary_upsert s.summaries (summaryOf client s.athletes game_week config mans)
    · intro m hm
      exact processAll_mgrKey_mem client s.athletes game_week mans 0 (initLoopState s) m hm
    · intro m hm r hr
      have hfields := pickRowsContrib_fields client s.athletes game_week m r hr
      have hmem : r ∈ mans.flatMap (pickRowsContrib client s.athletes game_week) :=
        List.mem_flatMap.mpr ⟨m, hm, hr⟩
      have hkey := foldl_upsertPick_mem _ s.picks r hmem
      rw [hfields.1, hfields.2] at hkey
      exact hkey
    · intro m hm r hr
      have hfields := transferRowsContrib_fields client s.athletes game_week m r hr
      have hmem : r ∈ mans.flatMap (transferRowsContrib client s.athletes game_week) :=
        List.mem_flatMap.mpr ⟨m, hm, hr⟩
      have hkey := foldl_getOrCreateTransfer_mem _ s.transfers r hmem
      rw [hfields.1, hfields.2] at hkey
      exact hkey

/-- C1 witness: on a client whose standings endpoint is down the pass leaves
    the store untouched, and on a client whose per-manager endpoints all fail
    the pass still returns normally and commits its summary row. -/
theorem c1_witness :
    (sync_top100_for_gameweek clientErr 1 cfg1 store0).2 = store0 ∧
    findSummary (sync_top100_for_gameweek clientA 1 cfg1 store0).2.summaries 1
      = some (summaryOf clientA store0.athletes 1 cfg1 [mA]) :=
  ⟨(c1_pass_atomic clientErr 1 cfg1 store0).1 "down" (by decide),
    ((c1_pass_atomic clientA 1 cfg1 store0).2 [mA] (by decide)).2.1⟩

/-- C8: re-running the same gameweek pass against the same oracle responses
    returns the same summary, and the committed summary row for the gameweek
    is identical after the second run: the summary is recomputed from the
    responses alone and its row fully overwritten, with no accumulation. -/
theorem c8_rerun_identical (client : Client) (game_week : Nat) (config : Top100Config)
    (s : Store) :
    (sync_top100_for_gameweek client game_week config
        (sync_top100_for_gameweek client game_week config s).2).1
      = (sync_top100_for_gameweek client game_week config s).1 ∧
    findSummary (sync_top100_for_gameweek client game_week config
        (sync_top100_for_gameweek client game_week config s).2).2.summaries game_week
      = findSummary (sync_top100_for_gameweek client game_week config s).2.summaries
          game_week := by
  cases h : fetch_top_managers client config with
  | error e =>
    have h1 := sync_error_spec client game_week config s e h
    rw [h1]
    show (sync_top100_for_gameweek client game_week config s).1 = Except.error e ∧
      findSummary (sync_top100_for_gameweek client game_week config s).2.summaries game_week
        = findSummary s.summaries game_week
    rw [h1]
    exact ⟨rfl, rfl⟩
  | ok mans =>
    have h1 := sync_spec client game_week config s mans h
    rw [h1]
    have h2 := sync_spec client game_week config
      { athletes := s.athletes,
        managers := (processAll client s.athletes game_week 0 mans (initLoopState s)).managers,
        picks := (mans.flatMap (pickRowsContrib client s.athletes game_week)).foldl
          upsertPick s.picks,
        transfers := (mans.flatMap (transferRowsContrib client s.athletes game_week)).foldl
          getOrCreateTransfer s.transfers,
        summaries := upsertSummary s.summaries
          (summaryOf client s.athletes game_week config mans) } mans h
    rw [h2]
    refine ⟨rfl, ?_⟩
    exact (findSummary_upsert _ _).trans (findSummary_upsert _ _).symm

/-- C5 counterexample: on a cohort of one manager whose picks and transfers
    fetches both fail, the committed average is the standings-reported 60
    points of that manager, not the 0 the claim assigns to a failed-fetch
    manager. -/
theorem c5_counterexample :
    (∃ e, clientA.manager_picks 7 1 = .error e) ∧
    (sync_top100_for_gameweek clientA 1 cfg1 store0).1.map (fun S => S.average_points)
      = .ok 60 ∧
    (60 : ℚ) ≠ 0 :=
  ⟨⟨"timeout", rfl⟩, by decide, by decide⟩

/-- C5 (amended): the committed average is the rounded arithmetic mean of the
    standings-reported event_total over the whole fetched cohort, one term
    per manager; a manager whose per-manager fetches failed still contributes
    its standings event_total rather than 0 (a 0 term arises only when the
    standings entry itself lacks the field). -/
theorem c5_amended_average (client : Client) (game_week : Nat) (config : Top100Config)
    (s : Store) (mans : List ManagerData)
    (h : fetch_top_managers client config = .ok mans) (hne : mans ≠ []) :
    (sync_top100_for_gameweek client game_week config s).1
        = .ok (summaryOf client s.athletes game_week config mans) ∧
    (summaryOf client s.athletes game_week config mans).average_points
        = round2 ((((mans.map (fun m => m.event_total)).sum : ℤ) : ℚ) / (mans.length : ℚ)) := by
  refine ⟨by rw [sync_spec client game_week config s mans h], ?_⟩
  have hmapne : mans.map (fun m => m.event_total) ≠ [] := by
    intro hc
    exact hne (List.map_eq_nil_iff.mp hc)
  have hpos : 0 < (mans.map (fun m => m.event_total)).length := List.length_pos.mpr hmapne
  show (if mans.map (fun m => m.event_total) = [] then (0 : ℚ)
    else avgRat (mans.map (fun m => m.event_total)).sum
      (mans.map (fun m => m.event_total)).length) = _
  rw [if_neg hmapne, avgRat_eq _ _ hpos, List.length_map]

/-- C5 witness for the amended statement: with the one-manager cohort whose
    fetches fail, the committed average is the rounded mean 60 / 1 = 60. -/
theorem c5_amended_witness :
    (sync_top100_for_gameweek clientA 1 cfg1 store0).1
        = .ok (summaryOf clientA store0.athletes 1 cfg1 [mA]) ∧
    (summaryOf clientA store0.athletes 1 cfg1 [mA]).average_points
        = round2 (((([mA].map (fun m => m.event_total)).sum : ℤ) : ℚ) / (([mA] : List ManagerData).length : ℚ)) :=
  c5_amended_average clientA 1 cfg1 store0 [mA] (by decide) (by decide)

/-- C7 counterexample: with the standings endpoint down, the range pass over
    gameweeks 1 and 2 does not proceed past the first gameweek: the command
    propagates the exception and returns no store at all, instead of
    continuing to the next gameweek. -/
theorem c7_counterexample :
    handle_range clientErr cfg1 (gwRange 1 2) store0 = .error "down" ∧
    (handle_range clientErr cfg1 (gwRange 1 2) store0).isOk = false :=
  ⟨by decide, by decide⟩

/-- C7 (amended): in range mode an orchestration-level failure during one
    gameweek's pass aborts that pass (its writes roll back) and the whole
    remaining range: the exception propagates out of the loop and the
    remaining gameweeks are not processed.  Only when a pass returns normally
    does the range continue with the next gameweek. -/
theorem c7_amended_range_aborts (client : Client) (config : Top100Config) (gw : Nat)
    (gws : List Nat) (s : Store) :
    (∀ e, (sync_top100_for_gameweek client gw config s).1 = .error e →
      handle_range client config (gw :: gws) s = .error e ∧
      (sync_top100_for_gameweek client gw config s).2 = s) ∧
    (∀ S s2, sync_top100_for_gameweek client gw config s = (.ok S, s2) →
      handle_range client config (gw :: gws) s = handle_range client config gws s2) := by
  constructor
  · intro e he
    constructor
    · unfold handle_range
      rcases hs : sync_top100_for_gameweek client gw config s with ⟨fst, snd⟩
      rw [hs] at he
      cases fst with
      | ok v => exact absurd he (by simp)
      | error e2 =>
        simp only at he
        rw [show e2 = e from by injection he]
    · unfold sync_top100_for_gameweek at he ⊢
      cases hb : syncBody client gw config s with
      | ok r =>
        rw [hb] at he
        exact absurd he (by simp)
      | error e2 => rfl
  · intro S s2 hs
    show (match sync_top100_for_gameweek client gw config s with
      | (.ok _, s2) => handle_range client config gws s2
      | (.error e, _) => Except.error e) = handle_range client config gws s2
    rw [hs]

/-- C7 witness: the abort consequence instantiated on the concrete client
    whose standings endpoint is down. -/
theorem c7_amended_witness :
    handle_range clientErr cfg1 [1, 2] store0 = .error "down" ∧
    (sync_top100_for_gameweek clientErr 1 cfg1 store0).2 = store0 :=
  (c7_amended_range_aborts clientErr cfg1 1 [2] store0).1 "down" (by decide)

/-!
Contributions of managers whose per-manager fetches failed.
-/

theorem picksContrib_failed (client : Client) (known : List Nat) (game_week : Nat)
    (m : ManagerData) (h : ∃ e, client.manager_picks m.entry game_week = .error e) :
    picksContrib client known game_week m = [] := by
  obtain ⟨e, he⟩ := h
  unfold picksContrib fetch_manager_picks
  rw [he]

theorem transfersContrib_failed (client : Client) (known : List Nat) (game_week : Nat)
    (m : ManagerData) (h : ∃ e, client.manager_transfers m.entry = .error e) :
    transfersContrib client known game_week m = [] := by
  obtain ⟨e, he⟩ := h
  unfold transfersContrib fetch_manager_transfers
  rw [he]
  rfl

theorem chipContrib_failed (client : Client) (game_week : Nat) (m : ManagerData)
    (h : ∃ e, client.manager_picks m.entry game_week = .error e) :
    ∀ c, chipContrib client game_week m c = c := by
  intro c
  obtain ⟨e, he⟩ := h
  unfold chipContrib fetch_manager_picks
  rw [he]

theorem flatMap_eq_filter {α β : Type} (p : α → Bool) (f : α → List β) (l : List α)
    (h : ∀ a ∈ l, p a = false → f a = []) :
    l.flatMap f = (l.filter p).flatMap f := by
  induction l with
  | nil => rfl
  | cons a as ih =>
    have ih' := ih (fun x hx => h x (List.mem_cons_of_mem a hx))
    cases hp : p a
    · rw [List.flatMap_cons, h a (List.mem_cons_self a as) hp, List.nil_append, ih',
        List.filter_cons, hp]
      rfl
    · rw [List.flatMap_cons, ih', List.filter_cons, hp]
      rfl

theorem chipFoldAll_cons (client : Client) (game_week : Nat) (m : ManagerData)
    (ms : List ManagerData) (c : List (String × Nat)) :
    chipFoldAll client game_week (m :: ms) c
      = chipFoldAll client game_week ms (chipContrib client game_week m c) := rfl

theorem chipFoldAll_filter (client : Client) (game_week : Nat) (p : ManagerData → Bool)
    (mans : List ManagerData)
    (h : ∀ m ∈ mans, p m = false → ∀ c, chipContrib client game_week m c = c) :
    ∀ c, chipFoldAll client game_week mans c
      = chipFoldAll client game_week (mans.filter p) c := by
  induction mans with
  | nil => intro c; rfl
  | cons m ms ih =>
    intro c
    have ih' := ih (fun x hx => h x (List.mem_cons_of_mem m hx))
    cases hp : p m
    · rw [chipFoldAll_cons, h m (List.mem_cons_self m ms) hp c, ih', List.filter_cons, hp]
      rfl
    · rw [chipFoldAll_cons, ih', List.filter_cons, hp]
      rfl

/-- C2 counterexample: a manager whose transfers fetch fails but whose picks
    fetch succeeds counts as a failed manager under the claim, yet its picks
    still reach the committed summary (a cohort of one such manager yields a
    nonempty template team), so the summary is not computed from the
    remaining managers only and the failed manager does contribute picks. -/
theorem c2_counterexample :
    (∃ e, clientD.manager_transfers 7 = .error e) ∧
    (sync_top100_for_gameweek clientD 1 cfg1 store0).1.map (fun S => S.template_team)
      = .ok [{ athlete_id := 1, count := 1, percentage := some (pctRat 1 1) }] ∧
    [({ athlete_id := 1, count := 1, percentage := some (pctRat 1 1) } : SummaryEntry)] ≠ [] :=
  ⟨⟨"timeout", rfl⟩, by decide, by decide⟩

/-- C2 (amended): if both per-manager fetches fail for the managers of an
    arbitrary failure set, the pass still returns normally and commits a
    summary whose pick, transfer, captaincy and chip aggregates come from the
    remaining managers only; each such failed manager contributes no picks
    and no transfers.  (The points statistics still cover the whole cohort,
    as they come from the standings payload; a manager with only one failed
    endpoint contributes nothing for that endpoint only.) -/
theorem c2_partial_failure (client : Client) (game_week : Nat) (config : Top100Config)
    (s : Store) (mans : List ManagerData) (failedB : ManagerData → Bool)
    (h : fetch_top_managers client config = .ok mans)
    (hfail : ∀ m ∈ mans, failedB m = true →
      (∃ e, client.manager_picks m.entry game_week = .error e) ∧
      (∃ e, client.manager_transfers m.entry = .error e)) :
    (sync_top100_for_gameweek client game_week config s).1
        = .ok (compute_summary game_week config
          ((mans.filter (fun m => !failedB m)).flatMap (picksContrib client s.athletes game_week))
          ((mans.filter (fun m => !failedB m)).flatMap
            (transfersContrib client s.athletes game_week))
          (capFold [] ((mans.filter (fun m => !failedB m)).flatMap
            (picksContrib client s.athletes game_week)))
          (chipFoldAll client game_week (mans.filter (fun m => !failedB m)) [])
          (mans.map (fun m => m.event_total))) ∧
    findSummary (sync_top100_for_gameweek client game_week config s).2.summaries game_week
        = some (compute_summary game_week config
          ((mans.filter (fun m => !failedB m)).flatMap (picksContrib client s.athletes game_week))
          ((mans.filter (fun m => !failedB m)).flatMap
            (transfersContrib client s.athletes game_week))
          (capFold [] ((mans.filter (fun m => !failedB m)).flatMap
            (picksContrib client s.athletes game_week)))
          (chipFoldAll client game_week (mans.filter (fun m => !failedB m)) [])
          (mans.map (fun m => m.event_total))) ∧
    (∀ m ∈ mans, failedB m = true →
      picksContrib client s.athletes game_week m = [] ∧
      transfersContrib client s.athletes game_week m = []) := by
  have hne : ∀ m ∈ mans, (fun m => !failedB m) m = false →
      picksContrib client s.athletes game_week m = [] := by
    intro m hm hp
    have hp' : failedB m = true := by simpa using hp
    exact picksContrib_failed client s.athletes game_week m (hfail m hm hp').1
  have hnt : ∀ m ∈ mans, (fun m => !failedB m) m = false →
      transfersContrib client s.athletes game_week m = [] := by
    intro m hm hp
    have hp' : failedB m = true := by simpa using hp
    exact transfersContrib_failed client s.athletes game_week m (hfail m hm hp').2
  have hnc : ∀ m ∈ mans, (fun m => !failedB m) m = false →
      ∀ c, chipContrib client game_week m c = c := by
    intro m hm hp
    have hp' : failedB m = true := by simpa using hp
    exact chipContrib_failed client game_week m (hfail m hm hp').1
  have hsummary : summaryOf client s.athletes game_week config mans
      = compute_summary game_week config
          ((mans.filter (fun m => !failedB m)).flatMap (picksContrib client s.athletes game_week))
          ((mans.filter (fun m => !failedB m)).flatMap
            (transfersContrib client s.athletes game_week))
          (capFold [] ((mans.filter (fun m => !failedB m)).flatMap
            (picksContrib client s.athletes game_week)))
          (chipFoldAll client game_week (mans.filter (fun m => !failedB m)) [])
          (mans.map (fun m => m.event_total)) := by
    unfold summaryOf
    rw [flatMap_eq_filter _ _ _ hne, flatMap_eq_filter _ _ _ hnt,
      chipFoldAll_filter client game_week _ mans hnc]
  rw [sync_spec client game_week config s mans h]
  refine ⟨by rw [hsummary], ?_, ?_⟩
  · rw [← hsummary]
    exact findSummary_upsert s.summaries (summaryOf client s.athletes game_week config mans)
  · intro m hm hf
    exact ⟨picksContrib_failed client s.athletes game_week m (hfail m hm hf).1,
      transfersContrib_failed client s.athletes game_week m (hfail m hm hf).2⟩

/-- C2 witness: with the two-manager cohort where manager 8's fetches fail,
    manager 8 contributes no picks and no transfers. -/
theorem c2_witness :
    picksContrib clientB store15.athletes 1 mB = [] ∧
    transfersContrib clientB store15.athletes 1 mB = [] :=
  (c2_partial_failure clientB 1 cfg2 store15 [mA, mB] (fun m => decide (m.entry = 8))
    (by decide)
    (by
      intro m hm hf
      rcases List.mem_cons.mp hm with rfl | hm
      · exact absurd hf (by decide)
      · rcases List.mem_cons.mp hm with rfl | hm
        · exact ⟨⟨"timeout", rfl⟩, ⟨"timeout", rfl⟩⟩
        · exact absurd hm (List.not_mem_nil m))).2.2
    mB (by decide) (by decide)

/-!
Ownership-count sums.
-/

theorem counterSum_cons {κ : Type} (p : κ × Nat) (l : List (κ × Nat)) :
    counterSum (p :: l) = p.2 + counterSum l := by
  simp [counterSum]

theorem counterSum_bump {κ : Type} [DecidableEq κ] (c : List (κ × Nat)) (k : κ) :
    counterSum (bump c k) = counterSum c + 1 := by
  induction c with
  | nil => rfl
  | cons p ps ih =>
    by_cases h : p.1 = k
    · simp only [bump, if_pos h, counterSum_cons]
      omega
    · simp only [bump, if_neg h, counterSum_cons, ih]
      omega

theorem ownershipFold_sums (all_picks : List CollectedPick) :
    ∀ acc : List (Nat × Nat) × List (Nat × Nat),
    counterSum (all_picks.foldl (fun acc p => (bump acc.1 p.athlete_id,
        if p.position ≤ 11 then bump acc.2 p.athlete_id else acc.2)) acc).1
      = counterSum acc.1 + all_picks.length ∧
    counterSum (all_picks.foldl (fun acc p => (bump acc.1 p.athlete_id,
        if p.position ≤ 11 then bump acc.2 p.athlete_id else acc.2)) acc).2
      = counterSum acc.2 + (all_picks.filter (fun p => decide (p.position ≤ 11))).length := by
  induction all_picks with
  | nil => intro acc; exact ⟨rfl, by simp⟩
  | cons p ps ih =>
    intro acc
    obtain ⟨a1, a2⟩ := acc
    obtain ⟨ih1, ih2⟩ := ih (bump a1 p.athlete_id,
      if p.position ≤ 11 then bump a2 p.athlete_id else a2)
    constructor
    · rw [List.foldl_cons, ih1]
      dsimp only
      rw [counterSum_bump, List.length_cons]
      omega
    · rw [List.foldl_cons, ih2]
      dsimp only
      by_cases h : p.position ≤ 11
      · rw [if_pos h, counterSum_bump, List.filter_cons]
        simp [h]
        omega
      · rw [if_neg h, List.filter_cons]
        simp [h]

theorem ownershipCounters_sums (all_picks : List CollectedPick) :
    counterSum (ownershipCounters all_picks).1 = all_picks.length ∧
    counterSum (ownershipCounters all_picks).2
      = (all_picks.filter (fun p => decide (p.position ≤ 11))).length := by
  obtain ⟨h1, h2⟩ := ownershipFold_sums all_picks ([], [])
  exact ⟨by rw [ownershipCounters, h1]; simp [counterSum],
    by rw [ownershipCounters, h2]; simp [counterSum]⟩

theorem collect_filter_len (l : List PickData) :
    ((l.map collectPick).filter (fun q => decide (q.position ≤ 11))).length
      = (l.filter (fun p => decide (p.position ≤ 11))).length := by
  induction l with
  | nil => rfl
  | cons p ps ih =>
    by_cases h : p.position ≤ 11 <;>
      simp [collectPick, h, List.filter_cons, ih]

theorem contribLens (client : Client) (known : List Nat) (game_week : Nat)
    (mans : List ManagerData)
    (h2 : ∀ m ∈ mans, Option.all (wfSquad known)
      (fetch_manager_picks client m.entry game_week) = true) :
    (mans.flatMap (picksContrib client known game_week)).length
      = 15 * (mans.filter
          (fun m => !(picksContrib client known game_week m).isEmpty)).length ∧
    ((mans.flatMap (picksContrib client known game_week)).filter
        (fun q => decide (q.position ≤ 11))).length
      = 11 * (mans.filter
          (fun m => !(picksContrib client known game_week m).isEmpty)).length := by
  induction mans with
  | nil => exact ⟨rfl, rfl⟩
  | cons m ms ih =>
    obtain ⟨ih1, ih2⟩ := ih (fun x hx => h2 x (List.mem_cons_of_mem m hx))
    cases hf : fetch_manager_picks client m.entry game_week with
    | none =>
      have hc : picksContrib client known game_week m = [] := by
        simp only [picksContrib, hf]
      constructor
      · rw [List.flatMap_cons, hc, List.nil_append, ih1, List.filter_cons]
        simp [hc]
      · rw [List.flatMap_cons, hc, List.nil_append, ih2, List.filter_cons]
        simp [hc]
    | some pd =>
      have hwf : wfSquad known pd = true := by
        have := h2 m (List.mem_cons_self m ms)
        rw [hf] at this
        simpa using this
      unfold wfSquad at hwf
      simp only [Bool.and_eq_true, decide_eq_true_eq] at hwf
      obtain ⟨⟨hk, h15⟩, h11⟩ := hwf
      have hfe : pd.picks.filter (fun p => decide (p.element ∈ known)) = pd.picks :=
        List.filter_eq_self.mpr (fun p hp => by simpa using hk p hp)
      have hc : picksContrib client known game_week m = pd.picks.map collectPick := by
        simp only [picksContrib, hf]
        rw [hfe]
      have hlen : (picksContrib client known game_week m).length = 15 := by
        rw [hc, List.length_map, h15]
      have hne : (!(picksContrib client known game_week m).isEmpty) = true := by
        rw [hc]
        cases hp : pd.picks.map collectPick with
        | nil =>
          exfalso
          have hlp := congrArg List.length hp
          rw [List.length_map, h15] at hlp
          exact absurd hlp (by decide)
        | cons a l => rfl
      have hflen : ((picksContrib client known game_week m).filter
          (fun q => decide (q.position ≤ 11))).length = 11 := by
        rw [hc, collect_filter_len, h11]
      constructor
      · rw [List.flatMap_cons, List.length_append, hlen, ih1, List.filter_cons]
        simp only [hne, if_true, List.length_cons]
        ring
      · rw [List.flatMap_cons, List.filter_append, List.length_append, hflen, ih2,
          List.filter_cons]
        simp only [hne, if_true, List.length_cons]
        ring

/-- C6 counterexample: a manager whose fetched picks are a single pick in
    position 1 rather than a full 15-slot squad makes the starting-ownership
    counts sum to 1, not 11 times the number of managers with at least one
    fetched pick, refuting the claim for arbitrary (manager, pick) input. -/
theorem c6_counterexample :
    counterSum (ownershipCounters
        ([mA].flatMap (picksContrib clientC store0.athletes 1))).2 = 1 ∧
    ([mA].filter
        (fun m => !(picksContrib clientC store0.athletes 1 m).isEmpty)).length = 1 ∧
    (1 : Nat) ≠ 11 * 1 :=
  ⟨by decide, by decide, by decide⟩

/-- C6 (amended): provided every successfully fetched picks payload is a
    well-formed squad over the locally known athletes (15 picks, all known,
    11 in positions 1-11), the pass commits, the squad-ownership counts sum
    to 15 times the number of managers with at least one fetched pick, and
    the starting-ownership counts sum to 11 times that number. -/
theorem c6_amended_ownership_sums (client : Client) (game_week : Nat)
    (config : Top100Config) (s : Store) (mans : List ManagerData)
    (h1 : fetch_top_managers client config = .ok mans)
    (h2 : ∀ m ∈ mans, Option.all (wfSquad s.athletes)
      (fetch_manager_picks client m.entry game_week) = true) :
    (sync_top100_for_gameweek client game_week config s).1
        = .ok (summaryOf client s.athletes game_week config mans) ∧
    counterSum (ownershipCounters
        (mans.flatMap (picksContrib client s.athletes game_week))).1
      = 15 * (mans.filter
          (fun m => !(picksContrib client s.athletes game_week m).isEmpty)).length ∧
    counterSum (ownershipCounters
        (mans.flatMap (picksContrib client s.athletes game_week))).2
      = 11 * (mans.filter
          (fun m => !(picksContrib client s.athletes game_week m).isEmpty)).length := by
  obtain ⟨hl1, hl2⟩ := contribLens client s.athletes game_week mans h2
  obtain ⟨ho1, ho2⟩ :=
    ownershipCounters_sums (mans.flatMap (picksContrib client s.athletes game_week))
  exact ⟨by rw [sync_spec client game_week config s mans h1],
    by rw [ho1, hl1], by rw [ho2, hl2]⟩

/-- C6 witness: on the two-manager cohort with one full-squad fetch and one
    failed fetch, the squad counts sum to 15 and the starting counts to 11
    per fetched manager. -/
theorem c6_witness :
    counterSum (ownershipCounters
        ([mA, mB].flatMap (picksContrib clientB store15.athletes 1))).1
      = 15 * ([mA, mB].filter
          (fun m => !(picksContrib clientB store15.athletes 1 m).isEmpty)).length ∧
    counterSum (ownershipCounters
        ([mA, mB].flatMap (picksContrib clientB store15.athletes 1))).2
      = 11 * ([mA, mB].filter
          (fun m => !(picksContrib clientB store15.athletes 1 m).isEmpty)).length := by
  have h := c6_amended_ownership_sums clientB 1 cfg2 store15 [mA, mB] (by decide) (by decide)
  exact ⟨h.2.1, h.2.2⟩

/-!
Membership in the ranked ownership lists, and bounds on the rounded
percentages.
-/

theorem insertDesc_mem {κ : Type} (x y : κ × Nat) (l : List (κ × Nat))
    (h : y ∈ insertDesc x l) : y = x ∨ y ∈ l := by
  induction l with
  | nil => simp only [insertDesc, List.mem_singleton] at h; exact Or.inl h
  | cons z zs ih =>
    by_cases hc : z.2 ≤ x.2
    · simp only [insertDesc, if_pos hc] at h
      rcases List.mem_cons.mp h with rfl | h2
      · exact Or.inl rfl
      · exact Or.inr h2
    · simp only [insertDesc, if_neg hc] at h
      rcases List.mem_cons.mp h with rfl | h2
      · exact Or.inr (List.mem_cons_self _ _)
      · rcases ih h2 with rfl | h3
        · exact Or.inl rfl
        · exact Or.inr (List.mem_cons_of_mem _ h3)

theorem sortDesc_mem {κ : Type} (l : List (κ × Nat)) (y : κ × Nat)
    (h : y ∈ l.foldr insertDesc []) : y ∈ l := by
  induction l with
  | nil => exact absurd h (List.not_mem_nil y)
  | cons z zs ih =>
    rcases insertDesc_mem z y (zs.foldr insertDesc []) h with rfl | h2
    · exact List.mem_cons_self _ _
    · exact List.mem_cons_of_mem _ (ih h2)

theorem most_common_mem {κ : Type} (n : Nat) (l : List (κ × Nat)) (y : κ × Nat)
    (h : y ∈ most_common n l) : y ∈ l :=
  sortDesc_mem l y (List.mem_of_mem_take h)

theorem pyRound_nonneg (q : ℚ) (h : 0 ≤ q) : 0 ≤ pyRound q := by
  unfold pyRound
  have hf : (0 : ℤ) ≤ ⌊q⌋ := Int.floor_nonneg.mpr h
  split_ifs <;> omega

theorem pyRound_le_1000 (q : ℚ) (h : q ≤ 1000) : pyRound q ≤ 1000 := by
  unfold pyRound
  have hf : ⌊q⌋ ≤ 1000 := by
    have h1000 : ⌊(1000 : ℚ)⌋ = 1000 := by
      rw [show ((1000 : ℚ)) = ((1000 : ℤ) : ℚ) by norm_num, Int.floor_intCast]
    calc ⌊q⌋ ≤ ⌊(1000 : ℚ)⌋ := Int.floor_le_floor h
      _ = 1000 := h1000
  have hfloorle : (⌊q⌋ : ℚ) ≤ q := Int.floor_le q
  split_ifs with h1 h2 h3
  · exact hf
  · have hge : (1 : ℚ)/2 ≤ q - ⌊q⌋ := not_lt.mp h1
    have hlt : (⌊q⌋ : ℚ) < 1000 := by linarith
    have : ⌊q⌋ < 1000 := by exact_mod_cast hlt
    omega
  · exact hf
  · have hge : (1 : ℚ)/2 ≤ q - ⌊q⌋ := not_lt.mp h1
    have hlt : (⌊q⌋ : ℚ) < 1000 := by linarith
    have : ⌊q⌋ < 1000 := by exact_mod_cast hlt
    omega

theorem round1_nonneg (q : ℚ) (h : 0 ≤ q) : 0 ≤ round1 q := by
  unfold round1
  have hr := pyRound_nonneg (10 * q) (by linarith)
  have hr' : (0 : ℚ) ≤ (pyRound (10 * q) : ℚ) := by exact_mod_cast hr
  positivity

theorem round1_le_100 (q : ℚ) (h : q ≤ 100) : round1 q ≤ 100 := by
  unfold round1
  have hr := pyRound_le_1000 (10 * q) (by linarith)
  have hr' : (pyRound (10 * q) : ℚ) ≤ 1000 := by exact_mod_cast hr
  rw [div_le_iff₀ (by norm_num : (0 : ℚ) < 10)]
  linarith

/-- C4 counterexample: the transfer-trend entries of a summary carry no
    percentage key at all, so not every entry of every list-valued field is
    an (athlete_id, count, percentage) record with the rounded-percentage
    value. -/
theorem c4_counterexample :
    (compute_summary 1 cfg2 [] [(3, 4)] [] [] []).most_transferred_in
      = [{ athlete_id := 3, count := 1, percentage := none }] ∧
    ∃ e ∈ (compute_summary 1 cfg2 [] [(3, 4)] [] [] []).most_transferred_in,
      e.percentage = none :=
  ⟨by decide, by decide⟩

/-- C4 (amended): in every summary produced by the reducer with a positive
    configured cohort size, every entry of template_team, template_squad and
    most_captained carries percentage = round(count / manager_count × 100, 1),
    and that percentage lies in [0, 100] whenever the underlying count is at
    most manager_count; the most_transferred_in and most_transferred_out
    entries carry only athlete_id and count, with no percentage. -/
theorem c4_amended_entries (game_week : Nat) (config : Top100Config)
    (all_picks : List CollectedPick) (all_transfers : List (Nat × Nat))
    (captain_picks : List (Nat × Nat)) (chip_usage : List (String × Nat))
    (points_list : List Int)
    (hmc : 0 < config.manager_count)
    (hsquad : ∀ p ∈ (ownershipCounters all_picks).1, p.2 ≤ config.manager_count)
    (hstart : ∀ p ∈ (ownershipCounters all_picks).2, p.2 ≤ config.manager_count)
    (hcap : ∀ p ∈ captain_picks, p.2 ≤ config.manager_count) :
    (∀ e ∈ (compute_summary game_week config all_picks all_transfers captain_picks
          chip_usage points_list).template_team ++
        (compute_summary game_week config all_picks all_transfers captain_picks
          chip_usage points_list).template_squad ++
        (compute_summary game_week config all_picks all_transfers captain_picks
          chip_usage points_list).most_captained,
      e.percentage = some (round1 ((e.count : ℚ) / (config.manager_count : ℚ) * 100)) ∧
      0 ≤ round1 ((e.count : ℚ) / (config.manager_count : ℚ) * 100) ∧
      round1 ((e.count : ℚ) / (config.manager_count : ℚ) * 100) ≤ 100) ∧
    (∀ e ∈ (compute_summary game_week config all_picks all_transfers captain_picks
          chip_usage points_list).most_transferred_in ++
        (compute_summary game_week config all_picks all_transfers captain_picks
          chip_usage points_list).most_transferred_out,
      e.percentage = none) := by
  constructor
  · intro e he
    have hcm : ∃ p : Nat × Nat, e = pctEntry config p ∧ p.2 ≤ config.manager_count := by
      rcases List.mem_append.mp he with hab | hc
      · rcases List.mem_append.mp hab with ha | hb
        · obtain ⟨p, hp, hpe⟩ := List.mem_map.mp ha
          exact ⟨p, hpe.symm, hstart p (most_common_mem _ _ _ hp)⟩
        · obtain ⟨p, hp, hpe⟩ := List.mem_map.mp hb
          exact ⟨p, hpe.symm, hsquad p (most_common_mem _ _ _ hp)⟩
      · obtain ⟨p, hp, hpe⟩ := List.mem_map.mp hc
        exact ⟨p, hpe.symm, hcap p (most_common_mem _ _ _ hp)⟩
    obtain ⟨p, rfl, hple⟩ := hcm
    have hmcq : (0 : ℚ) < (config.manager_count : ℚ) := by exact_mod_cast hmc
    have hleq : (p.2 : ℚ) ≤ (config.manager_count : ℚ) := by exact_mod_cast hple
    have hx0 : (0 : ℚ) ≤ (p.2 : ℚ) / (config.manager_count : ℚ) * 100 := by positivity
    have hx1 : (p.2 : ℚ) / (config.manager_count : ℚ) * 100 ≤ 100 := by
      have hdiv : (p.2 : ℚ) / (config.manager_count : ℚ) ≤ 1 := (div_le_one hmcq).mpr hleq
      linarith [mul_le_mul_of_nonneg_right hdiv (show (0 : ℚ) ≤ 100 by norm_num)]
    refine ⟨?_, round1_nonneg _ hx0, round1_le_100 _ hx1⟩
    show some (pctRat p.2 config.manager_count) = _
    rw [pctRat_eq p.2 config.manager_count hmc]
    rfl
  · intro e he
    rcases List.mem_append.mp he with ha | hb
    · obtain ⟨p, _, hpe⟩ := List.mem_map.mp ha
      rw [← hpe]
    · obtain ⟨p, _, hpe⟩ := List.mem_map.mp hb
      rw [← hpe]

/-- C4 witness: the percentage of a count of 1 in a cohort of 2 is the
    rounded 50.0, inside the 0 to 100 range. -/
theorem c4_witness :
    pctRat 1 cfg2.manager_count
      = round1 (((1 : ℕ) : ℚ) / ((cfg2.manager_count : ℕ) : ℚ) * 100) ∧
    0 ≤ round1 (((1 : ℕ) : ℚ) / ((cfg2.manager_count : ℕ) : ℚ) * 100) ∧
    round1 (((1 : ℕ) : ℚ) / ((cfg2.manager_count : ℕ) : ℚ) * 100) ≤ 100 := by
  have h := (c4_amended_entries 1 cfg2
    [{ athlete_id := 1, position := 1, is_captain := true }] [(3, 4)] [(1, 1)] [] []
    (by decide) (by decide) (by decide) (by decide)).1
    { athlete_id := 1, count := 1, percentage := some (pctRat 1 cfg2.manager_count) }
    (by decide)
  exact ⟨Option.some.inj h.1, h.2.1, h.2.2⟩

end FPLSpec
